import Mathlib

/-!
Shallow embedding of the Ludo backend's rule engine, room coordinator core,
game-state cache and engagement dice engine, together with theorems checking
the specification's claims against these definitions.

Sources embedded:
* `src/config/ludoConfigBackend.ts` — board geometry, color maps, safe cells.
* `src/services/ludoGameLogicBackend.ts` — `findValidMoves`, `applyMove`,
  `checkWinCondition`, `advanceTurn`.
* `src/controllers/roomController.ts` — the pure core of `makeMove` and
  `rollDice` (the part executed inside `runExclusive`), `getCurrentIndex`,
  `getControllableColors`.
* `src/state/gameStateCache.ts` — `markDirty`, `evict` (memory map plus the
  set of shared-cache keys; values held in the shared cache are abstracted
  to their keys, timestamps are omitted).
* `src/game-logic/engagement-engine` — `normalizeWithEntropyFloor`,
  `enforceMinProbability`, `applyPerceptionMasking`, `sampleByWeights`,
  `sampleWithoutSix` and the triple-six suppression step of
  `generateEngagementDice`; JS floating point is modelled by exact `ℚ`,
  and every call to the RNG is an explicit parameter.

JS remainder `%` is modelled by `Int.tmod` (truncated remainder), and the
JS `array[i]` / `find` partiality by `Option`.  A JS `TypeError` (e.g. the
non-null assertion in `applyMove`) is modelled by `Option`/`Except` failure.
-/

namespace LudoBackend

/-- Structural decidable equality for `Except` results. -/
instance {ε α : Type} [DecidableEq ε] [DecidableEq α] : DecidableEq (Except ε α) := fun x y =>
  match x, y with
  | .ok a, .ok b =>
    if h : a = b then isTrue (by rw [h]) else isFalse (by intro hh; cases hh; exact h rfl)
  | .error e, .error f =>
    if h : e = f then isTrue (by rw [h]) else isFalse (by intro hh; cases hh; exact h rfl)
  | .ok _, .error _ => isFalse (by intro hh; cases hh)
  | .error _, .ok _ => isFalse (by intro hh; cases hh)

/-- The eight token colors of `ludoConfigBackend.ts`. -/
inductive PlayerColor
  | red | green | yellow | blue | purple | orange | white | black
  deriving DecidableEq, Repr

/-- Token status enum of `ludoConfigBackend.ts`. -/
inductive TokenStatus
  | base | active | safe | home | finished
  deriving DecidableEq, Repr

/-- A token: `{id, color, status, position, steps}`. -/
structure Token where
  id : Nat
  color : PlayerColor
  status : TokenStatus
  position : Int
  steps : Int
  deriving DecidableEq, Repr

/-- The fields of `PlayerConfig` consumed by the rule engine. -/
structure PlayerConfig where
  id : PlayerColor
  homeStart : Int
  homeEntranceCoord : Nat × Nat
  homeRunCoords : List (Nat × Nat)
  deriving DecidableEq, Repr

/-- `ALL_PLAYER_DETAILS` (rule-engine relevant fields only). -/
def ALL_PLAYER_DETAILS : List PlayerConfig :=
  [ { id := .red, homeStart := 0, homeEntranceCoord := (6, 1),
      homeRunCoords := [(7, 1), (7, 2), (7, 3), (7, 4), (7, 5), (7, 6)] },
    { id := .green, homeStart := 13, homeEntranceCoord := (1, 8),
      homeRunCoords := [(1, 7), (2, 7), (3, 7), (4, 7), (5, 7), (6, 7)] },
    { id := .yellow, homeStart := 26, homeEntranceCoord := (8, 13),
      homeRunCoords := [(7, 13), (7, 12), (7, 11), (7, 10), (7, 9), (7, 8)] },
    { id := .blue, homeStart := 39, homeEntranceCoord := (13, 6),
      homeRunCoords := [(13, 7), (12, 7), (11, 7), (10, 7), (9, 7), (8, 7)] },
    { id := .purple, homeStart := 6, homeEntranceCoord := (6, 4),
      homeRunCoords := [(6, 5), (5, 5), (4, 5), (3, 5), (2, 5), (1, 5)] },
    { id := .orange, homeStart := 32, homeEntranceCoord := (8, 10),
      homeRunCoords := [(9, 9), (9, 10), (9, 11), (9, 12), (9, 13), (9, 14)] } ]

/-- `PLAYER_COLOR_MAPS` (keys 2..6). -/
def PLAYER_COLOR_MAPS : Nat → Option (List PlayerColor)
  | 2 => some [.red, .yellow]
  | 3 => some [.red, .green, .blue]
  | 4 => some [.red, .green, .yellow, .blue]
  | 5 => some [.red, .green, .yellow, .blue, .orange]
  | 6 => some [.red, .green, .yellow, .blue, .purple, .orange]
  | _ => none

/-- `PLAYER_COLOR_MAPS[n] || PLAYER_COLOR_MAPS[4]`. -/
def getColorOrder (maxPlayers : Nat) : List PlayerColor :=
  (PLAYER_COLOR_MAPS maxPlayers).getD [.red, .green, .yellow, .blue]

/-- `TRACK_COORDS`: the 52 cells of the main track. -/
def TRACK_COORDS : List (Nat × Nat) :=
  [ (6, 1), (6, 2), (6, 3), (6, 4), (6, 5),
    (5, 6), (4, 6), (3, 6), (2, 6), (1, 6),
    (0, 6), (0, 7), (0, 8),
    (1, 8), (2, 8), (3, 8), (4, 8), (5, 8),
    (6, 9), (6, 10), (6, 11), (6, 12), (6, 13),
    (6, 14), (7, 14), (8, 14),
    (8, 13), (8, 12), (8, 11), (8, 10), (8, 9),
    (9, 8), (10, 8), (11, 8), (12, 8), (13, 8),
    (14, 8), (14, 7), (14, 6),
    (13, 6), (12, 6), (11, 6), (10, 6), (9, 6),
    (8, 5), (8, 4), (8, 3), (8, 2), (8, 1),
    (8, 0), (7, 0), (6, 0) ]

/-- `SAFE_INDICES`: main-track cells where captures are forbidden. -/
def SAFE_INDICES : List Int := [0, 8, 13, 21, 26, 34, 39, 47]

/-- The `GameConfig` fields consumed by the rule engine. -/
structure GameConfig where
  players : List PlayerConfig
  HOME_RUNS : PlayerColor → List (Nat × Nat)
  HOME_ENTRANCES : PlayerColor → Nat × Nat

/-- `getGameConfig(numPlayers)`: active players, with the color records
built by overwriting the `createColorRecord` defaults. -/
def getGameConfig (numPlayers : Nat) : GameConfig :=
  let activePlayerColors := getColorOrder numPlayers
  let playersConfig := ALL_PLAYER_DETAILS.filter (fun p => activePlayerColors.contains p.id)
  { players := playersConfig
    HOME_RUNS := fun c =>
      match playersConfig.find? (fun p => p.id = c) with
      | some p => p.homeRunCoords
      | none => []
    HOME_ENTRANCES := fun c =>
      match playersConfig.find? (fun p => p.id = c) with
      | some p => p.homeEntranceCoord
      | none => (0, 0) }

/-- JS `Array.findIndex` (−1 when absent). -/
def findIdxInt (p : α → Bool) (l : List α) : Int :=
  match l.findIdx? p with
  | some i => (i : Int)
  | none => -1

/-- The entry-index computation shared by `findValidMoves` and `applyMove`:
locate the color's home-entrance coordinate on the track and shift it back
by the magic offset of 2. -/
def entryIndexAdjustedFor (cfg : GameConfig) (c : PlayerColor) : Int :=
  let trackLength : Int := (TRACK_COORDS.length : Int)
  let entryCoord := cfg.HOME_ENTRANCES c
  let entryIndex := findIdxInt (fun rc => decide (rc.1 = entryCoord.1) && decide (rc.2 = entryCoord.2)) TRACK_COORDS
  if entryIndex = -1 then -1 else Int.tmod (entryIndex - 2 + trackLength) trackLength

/-- The token record `Record<PlayerColor, Token[]>`, as an association list
in JS object-key insertion order (`for … in` iterates in this order). -/
abbrev Tokens := List (PlayerColor × List Token)

/-- `tokens[color] || []`. -/
def lookupTokens (tokens : Tokens) (c : PlayerColor) : List Token :=
  match tokens.find? (fun e => e.1 = c) with
  | some e => e.2
  | none => []

/-- `tokens[color] = l` (JS object assignment: overwrite in place, or append
a new key). -/
def setTokens (tokens : Tokens) (c : PlayerColor) (l : List Token) : Tokens :=
  if tokens.any (fun e => e.1 = c) then
    tokens.map (fun e => if e.1 = c then (e.1, l) else e)
  else
    tokens ++ [(c, l)]

/-- `status === "active" || status === "safe"`. -/
def inPlayStatus : TokenStatus → Bool
  | .active => true
  | .safe => true
  | _ => false

/-- `position >= 0 && position < 52 && (active || safe)` — the repeated
"token on the main track" test. -/
def onTrackInPlay (t : Token) : Bool :=
  decide (0 ≤ t.position) && decide (t.position < 52) && inPlayStatus t.status

/-- First-occurrence deduplication, as JS `Array.from(new Set(list))`. -/
def dedupFirst [DecidableEq α] (l : List α) : List α :=
  l.foldl (fun acc c => if c ∈ acc then acc else acc ++ [c]) []

/-- `hasEnemyBlockadeAt` from `findValidMoves`: some non-allied color has two
or more in-play tokens on the cell. -/
def hasEnemyBlockadeAt (tokens : Tokens) (position : Int) (alliedSet : List PlayerColor) : Bool :=
  tokens.any (fun e =>
    !alliedSet.contains e.1 &&
      decide (2 ≤ (e.2.filter (fun t => onTrackInPlay t && decide (t.position = position))).length))

/-- The per-token body of the `findValidMoves` loop: `some (id, color)`
when the token is pushed onto `result`. -/
def fvmToken (tokens : Tokens) (playerTokens : List Token) (diceValue : Int)
    (homeCellCount : Int) (entryIndexAdjusted : Int) (controlledSet : List PlayerColor)
    (teamBlockadeRulesEnabled : Bool) (token : Token) : Option (Nat × PlayerColor) :=
  if token.status = .home then none
  else
    let trackLength : Int := (TRACK_COORDS.length : Int)
    let rotationThreshold : Int := max 1 (trackLength - 2)
    let tokenOnTrack := onTrackInPlay token
    let stackedCount : Nat :=
      if tokenOnTrack then
        (playerTokens.filter (fun t => onTrackInPlay t && decide (t.position = token.position))).length
      else 1
    let forcedStackMove := tokenOnTrack && decide (2 ≤ stackedCount) && !SAFE_INDICES.contains token.position
    if forcedStackMove && decide (Int.tmod diceValue 2 ≠ 0) then none
    else
      let effectiveDice := if forcedStackMove then diceValue / 2 else diceValue
      if effectiveDice < 1 then none
      else if token.status = .base then
        if diceValue = 6 then some (token.id, token.color) else none
      else if 52 ≤ token.position then
        let currentHomeIndex := token.position - 52
        if homeCellCount < currentHomeIndex + effectiveDice then none
        else some (token.id, token.color)
      else
        let movingStackCount : Nat :=
          (playerTokens.filter (fun t => onTrackInPlay t && decide (t.position = token.position))).length
        let canBreakOrCrossBlockade := decide (2 ≤ movingStackCount)
        let stepsClear :=
          (List.range effectiveDice.toNat).all (fun s =>
            let stepPos := Int.tmod (token.position + ((s : Int) + 1)) trackLength
            SAFE_INDICES.contains stepPos ||
              !(teamBlockadeRulesEnabled && hasEnemyBlockadeAt tokens stepPos controlledSet &&
                !canBreakOrCrossBlockade))
        let canContinueOnTrack :=
          stepsClear &&
            (if entryIndexAdjusted ≠ -1 then
              let distanceToArrow := Int.tmod (entryIndexAdjusted - token.position + trackLength) trackLength
              let completesLapAtArrow := rotationThreshold ≤ token.steps + distanceToArrow
              if completesLapAtArrow ∧ distanceToArrow < effectiveDice then
                let overshoot := effectiveDice - distanceToArrow
                !(decide (1 ≤ overshoot) && decide (overshoot ≤ homeCellCount + 1))
              else true
            else true)
        let canEnterHome :=
          if entryIndexAdjusted = -1 then false
          else
            let distanceToArrow := Int.tmod (entryIndexAdjusted - token.position + trackLength) trackLength
            let completesLapAtArrow := rotationThreshold ≤ token.steps + distanceToArrow
            if ¬completesLapAtArrow then false
            else if effectiveDice ≤ distanceToArrow then false
            else
              let pathClear :=
                (List.range distanceToArrow.toNat).all (fun s =>
                  let stepPos := Int.tmod (token.position + ((s : Int) + 1)) trackLength
                  SAFE_INDICES.contains stepPos ||
                    !(teamBlockadeRulesEnabled && hasEnemyBlockadeAt tokens stepPos controlledSet &&
                      !canBreakOrCrossBlockade))
              if ¬pathClear then false
              else
                let overshoot := effectiveDice - distanceToArrow
                if overshoot < 1 then false
                else if homeCellCount + 1 < overshoot then false
                else true
        if canContinueOnTrack || canEnterHome then some (token.id, token.color) else none

/-- `findValidMoves(tokens, currentPlayerColor, diceValue, gameConfig,
controllableColors)`. -/
def findValidMoves (tokens : Tokens) (currentPlayerColor : PlayerColor) (diceValue : Int)
    (gameConfig : GameConfig) (controllableColors : List PlayerColor := []) :
    List (Nat × PlayerColor) :=
  let controlledColors :=
    dedupFirst (if controllableColors.isEmpty then [currentPlayerColor] else controllableColors)
  let teamBlockadeRulesEnabled := decide (2 ≤ controlledColors.length)
  controlledColors.foldl (fun result color =>
    let playerTokens := lookupTokens tokens color
    let homeCellCount : Int := max 1 (((gameConfig.HOME_RUNS color).length : Int) - 1)
    let entryIndexAdjusted := entryIndexAdjustedFor gameConfig color
    result ++ playerTokens.filterMap
      (fvmToken tokens playerTokens diceValue homeCellCount entryIndexAdjusted
        controlledColors teamBlockadeRulesEnabled)) []

/-- Result record of `applyMove`. -/
structure MoveResult where
  updatedToken : Token
  capturedToken : Option (Nat × PlayerColor) := none
  capturedTokens : Option (List (Nat × PlayerColor)) := none
  deriving DecidableEq, Repr

/-- Outcome of the capture scan (`for enemyColor in allTokens` with `break`). -/
inductive CaptureScan
  | noCapture
  | rejected
  | captured (victims : List (Nat × PlayerColor))
  deriving DecidableEq, Repr

/-- The capture loop of `applyMove`, iterating the token record in key order. -/
def captureScan (alliedSet : List PlayerColor) (teamBlockadeRulesEnabled canBreakOrCrossBlockade : Bool)
    (newPos : Int) : List (PlayerColor × List Token) → CaptureScan
  | [] => .noCapture
  | (enemyColor, enemies) :: rest =>
    if alliedSet.contains enemyColor then
      captureScan alliedSet teamBlockadeRulesEnabled canBreakOrCrossBlockade newPos rest
    else
      let atPos := enemies.filter (fun t => decide (t.position = newPos) && inPlayStatus t.status)
      if 2 ≤ atPos.length then
        if teamBlockadeRulesEnabled && !canBreakOrCrossBlockade then .rejected
        else if teamBlockadeRulesEnabled && canBreakOrCrossBlockade then
          .captured (atPos.map (fun t => (t.id, t.color)))
        else
          -- non-team mode: stacked enemies on a cell are uncapturable
          captureScan alliedSet teamBlockadeRulesEnabled canBreakOrCrossBlockade newPos rest
      else if atPos.length = 1 then
        .captured (atPos.map (fun t => (t.id, t.color)))
      else
        captureScan alliedSet teamBlockadeRulesEnabled canBreakOrCrossBlockade newPos rest

/-- `applyMove(currentToken, diceValue, playerColor, gameConfig, allTokens,
enterHome, alliedColors)`.  `none` models the JS `TypeError` raised by the
non-null assertion `gameConfig.players.find(...)!` when the moving color is
not an active player and the base branch dereferences it. -/
def applyMove (currentToken : Token) (diceValue : Int) (playerColor : PlayerColor)
    (gameConfig : GameConfig) (allTokens : Tokens) (enterHome : Bool := true)
    (alliedColors : List PlayerColor := []) : Option MoveResult :=
  let alliedSet := dedupFirst (if alliedColors.isEmpty then [playerColor] else alliedColors)
  let teamBlockadeRulesEnabled := decide (2 ≤ alliedSet.length)
  let trackLength : Int := (TRACK_COORDS.length : Int)
  let homeCellCount : Int := max 1 (((gameConfig.HOME_RUNS playerColor).length : Int) - 1)
  let player? := gameConfig.players.find? (fun p => p.id = playerColor)
  let entryIndexAdjusted := entryIndexAdjustedFor gameConfig playerColor
  let rotationThreshold : Int := max 1 (trackLength - 2)
  let movingStackCount : Nat :=
    ((lookupTokens allTokens playerColor).filter
      (fun t => onTrackInPlay t && decide (t.position = currentToken.position))).length
  let canBreakOrCrossBlockade := decide (2 ≤ movingStackCount)
  if currentToken.status = .base then
    match player? with
    | none => none
    | some player =>
      some { updatedToken := { currentToken with status := .active, steps := 0, position := player.homeStart } }
  else
    let newSteps := currentToken.steps + diceValue
    if 52 ≤ currentToken.position then
      let currentHomeIndex := currentToken.position - 52
      let nextHomeIndex := currentHomeIndex + diceValue
      if homeCellCount < nextHomeIndex then
        some { updatedToken := currentToken }
      else if nextHomeIndex = homeCellCount then
        some { updatedToken := { currentToken with status := .home, steps := currentToken.steps + diceValue, position := 58 } }
      else
        some { updatedToken := { currentToken with status := .safe, steps := currentToken.steps + diceValue, position := 52 + nextHomeIndex } }
    else
      let homeEntry : Option MoveResult :=
        if enterHome ∧ entryIndexAdjusted ≠ -1 ∧ currentToken.position < 52 then
          let distanceToArrow := Int.tmod (entryIndexAdjusted - currentToken.position + trackLength) trackLength
          let completesLapAtArrow := rotationThreshold ≤ currentToken.steps + distanceToArrow
          if completesLapAtArrow ∧ distanceToArrow < diceValue then
            let overshoot := diceValue - distanceToArrow
            if 1 ≤ overshoot ∧ overshoot ≤ homeCellCount + 1 then
              if overshoot = homeCellCount + 1 then
                some { updatedToken := { currentToken with status := .home, steps := currentToken.steps + diceValue, position := 58 } }
              else
                some { updatedToken := { currentToken with status := .safe, steps := currentToken.steps + diceValue, position := 52 + (overshoot - 1) } }
            else none
          else none
        else none
      match homeEntry with
      | some r => some r
      | none =>
        let newPos := Int.tmod (currentToken.position + diceValue) trackLength
        let updatedToken :=
          { currentToken with
              steps := newSteps
              position := newPos
              status := if SAFE_INDICES.contains newPos then .safe else .active }
        if !SAFE_INDICES.contains newPos then
          match captureScan alliedSet teamBlockadeRulesEnabled canBreakOrCrossBlockade newPos allTokens with
          | .rejected => some { updatedToken := currentToken }
          | .captured victims =>
            some { updatedToken := updatedToken, capturedToken := victims.head?, capturedTokens := some victims }
          | .noCapture => some { updatedToken := updatedToken }
        else
          some { updatedToken := updatedToken }

/-- `checkWinCondition(tokens, color)`: all four tokens home.  The missing
color entry (a JS crash) is modelled as the empty list. -/
def checkWinCondition (tokens : Tokens) (color : PlayerColor) : Bool :=
  (lookupTokens tokens color).all (fun t => t.status = .home)

/-- Winner entry `{playerId, rank}`. -/
structure WinnerEntry where
  playerId : String
  rank : Nat
  deriving DecidableEq, Repr

/-- The player rows consumed by the coordinator (`_id`, `userId`, `color`,
`displayName`), with `_id` rendered as `rpId`. -/
structure RoomPlayer where
  rpId : String
  userId : String
  color : PlayerColor
  displayName : String
  deriving DecidableEq, Repr

/-- `advanceTurn(currentPlayerIndex, roomPlayers, gameBoard, skipWinners)`. -/
def advanceTurn (currentPlayerIndex : Nat) (roomPlayers : List RoomPlayer)
    (winners : List WinnerEntry) (skipWinners : Bool) : Nat :=
  let total := roomPlayers.length
  match (List.range total).findSome? (fun j =>
    let next := (currentPlayerIndex + (j + 1)) % total
    if !skipWinners then some next
    else
      match roomPlayers.get? next with
      | some p => if winners.any (fun w => w.playerId = p.rpId) then none else some next
      | none => none) with
  | some n => n
  | none => currentPlayerIndex

/-- Room mode setting. -/
inductive RoomMode
  | individual | team
  deriving DecidableEq, Repr

/-- Room status. -/
inductive RoomStatus
  | waiting | inProgress | completed
  deriving DecidableEq, Repr

/-- `RuntimeGameBoard` of `gameStateCache.ts`. -/
structure GameBoard where
  tokens : Tokens
  currentPlayerId : Option String
  diceValue : Option Int
  validMoves : List (Nat × PlayerColor)
  gameLog : List String
  winners : List WinnerEntry
  lastRollAt : Option String
  deriving DecidableEq, Repr

/-- `RuntimeRoomState` (timestamps omitted). -/
structure RuntimeRoomState where
  status : RoomStatus
  currentPlayerIndex : Int
  gameBoard : GameBoard
  revision : Nat
  dirty : Bool
  deriving DecidableEq, Repr

/-- `getCurrentIndex(room, orderedPlayers)` of `roomController.ts`. -/
def getCurrentIndex (currentPlayerIndex : Int) (currentPlayerId : Option String)
    (orderedPlayers : List RoomPlayer) : Nat :=
  let clamped := min (max currentPlayerIndex 0).toNat (orderedPlayers.length - 1)
  match currentPlayerId with
  | some cid =>
    match orderedPlayers.findIdx? (fun p => p.rpId = cid) with
    | some idx => idx
    | none => clamped
  | none => clamped

/-- `getTeammateColor(maxPlayers, color)`. -/
def getTeammateColor (maxPlayers : Nat) (color : PlayerColor) : Option PlayerColor :=
  let order := getColorOrder maxPlayers
  if order.length < 4 ∨ order.length % 2 ≠ 0 then none
  else
    match order.findIdx? (fun c => c = color) with
    | none => none
    | some idx => order.get? ((idx + order.length / 2) % order.length)

/-- `getControllableColors(mode, maxPlayers, color)`. -/
def getControllableColors (mode : RoomMode) (maxPlayers : Nat) (color : PlayerColor) :
    List PlayerColor :=
  if mode ≠ .team then [color]
  else
    match getTeammateColor maxPlayers color with
    | none => [color]
    | some teammate => if teammate = color then [color] else [color, teammate]

/-- The shared preamble of `makeMove` / `rollDice` / `advanceTurn` inside
`runExclusive`: cache the resolved index on the state and default
`currentPlayerId` to the resolved seat. -/
def resolveTurnState (state0 : RuntimeRoomState) (currentIndex : Nat) (current : RoomPlayer) :
    RuntimeRoomState :=
  { state0 with
      currentPlayerIndex := (currentIndex : Int)
      gameBoard :=
        { state0.gameBoard with
            currentPlayerId := some (state0.gameBoard.currentPlayerId.getD current.rpId) } }

/-- JS `s || d` for strings (empty string is falsy). -/
def jsOr (s d : String) : String := if s = "" then d else s

/-- Errors thrown by the coordinator cores.  `tsError` models a JS
`TypeError` escaping the handler (caught as a 500). -/
inductive MoveErr
  | notYourTurn | winnerCannotMove | winnerCannotRoll | alreadyRolled
  | diceMismatch | invalidTeamColor | invalidMove | tokenNotFound | tsError
  deriving DecidableEq, Repr

/-- Accumulator of the per-stack-member move loop in `makeMove`. -/
structure StackLoopState where
  working : Tokens
  merged : List (Nat × PlayerColor)
  reachedHomeThisMove : Bool
  releasedFromBase : Bool
  enteredSafeCell : Bool
  deriving DecidableEq, Repr

/-- The `seenCaptured` deduplication: append only pairs not seen before. -/
def mergeCaptured (merged newOnes : List (Nat × PlayerColor)) : List (Nat × PlayerColor) :=
  newOnes.foldl (fun acc c => if acc.any (fun p => p = c) then acc else acc ++ [c]) merged

/-- The `for (const movingId of movingTokenIds)` loop of `makeMove`:
find the mover in the working record, apply the rule engine, write the
updated token back, track flags, and merge captured victims. -/
def applyStackMoves (cfg : GameConfig) (moveColor : PlayerColor) (effectiveDice : Int)
    (enterHome : Bool) (controllable : List PlayerColor) :
    List Nat → StackLoopState → Option StackLoopState
  | [], st => some st
  | movingId :: rest, st =>
    match (lookupTokens st.working moveColor).find? (fun t => t.id = movingId) with
    | none => applyStackMoves cfg moveColor effectiveDice enterHome controllable rest st
    | some movingToken =>
      match applyMove movingToken effectiveDice moveColor cfg st.working enterHome controllable with
      | none => none
      | some res =>
        let beforeStatus := movingToken.status
        let beforePosition := movingToken.position
        let updated := res.updatedToken
        let working := setTokens st.working moveColor
          ((lookupTokens st.working moveColor).map (fun t => if t.id = movingId then updated else t))
        let st' : StackLoopState :=
          { working := working
            merged := mergeCaptured st.merged (res.capturedTokens.getD [])
            reachedHomeThisMove :=
              st.reachedHomeThisMove || (decide (beforeStatus ≠ .home) && decide (updated.status = .home))
            releasedFromBase :=
              st.releasedFromBase || (decide (beforeStatus = .base) && decide (updated.status ≠ .base))
            enteredSafeCell :=
              st.enteredSafeCell ||
                (inPlayStatus beforeStatus && decide (0 ≤ beforePosition) && decide (beforePosition < 52) &&
                  decide (updated.status = .safe)) }
        applyStackMoves cfg moveColor effectiveDice enterHome controllable rest st'

/-- `{...t, position: -1, status: "base", steps: -1}` — the capture reset. -/
def resetToken (t : Token) : Token :=
  { t with position := -1, status := .base, steps := -1 }

/-- The post-loop capture handling of `makeMove`: group captured victims by
color and teleport each back to base. -/
def applyCaptureResets (merged : List (Nat × PlayerColor)) (working : Tokens) : Tokens :=
  let capturedColors := dedupFirst (merged.map Prod.snd)
  capturedColors.foldl (fun w c =>
    setTokens w c ((lookupTokens w c).map (fun t =>
      if merged.any (fun p => p.2 = c ∧ p.1 = t.id) then resetToken t else t))) working

/-- The values `makeMove` returns to the HTTP layer (state plus the move
payload fields consumed by the claims). -/
structure MoveOutcome where
  state : RuntimeRoomState
  effectiveDice : Int
  movingTokenIds : List Nat
  mergedCaptured : List (Nat × PlayerColor)
  capturedToken : Option (Nat × PlayerColor)
  earnedExtraTurn : Bool
  gameCompleted : Bool
  reachedHomeThisMove : Bool
  releasedFromBase : Bool
  enteredSafeCell : Bool
  deriving DecidableEq, Repr

/-- The winner-push block of `makeMove`: append `{seatId, rank}` when the
move color has just won and its owner is not yet listed. -/
def winnersAfterMove (ps : List RoomPlayer) (mc : PlayerColor) (hasWon : Bool)
    (winners0 : List WinnerEntry) : List WinnerEntry :=
  match ps.find? (fun p => p.color = mc) with
  | some mo =>
    if hasWon && !winners0.any (fun w => w.playerId = mo.rpId) then
      winners0 ++ [⟨mo.rpId, winners0.length + 1⟩]
    else winners0
  | none => winners0

/-- The matching game-log line of the winner-push block. -/
def winnerLogAfterMove (ps : List RoomPlayer) (mc : PlayerColor) (hasWon : Bool)
    (winners0 : List WinnerEntry) (log0 : List String) : List String :=
  match ps.find? (fun p => p.color = mc) with
  | some mo =>
    if hasWon && !winners0.any (fun w => w.playerId = mo.rpId) then
      log0 ++ [jsOr mo.displayName "Player" ++ " finished! Rank " ++
        toString (winners0.length + 1)]
    else log0
  | none => log0

/-- The tail of `makeMove` after the stack loop succeeded: capture resets,
win detection, board clearing, and the extra-turn / completion / rotation
branch. -/
def makeMoveFinish (moveColorOf : PlayerColor) (mode : RoomMode) (maxPlayers : Nat)
    (orderedPlayers : List RoomPlayer)
    (state : RuntimeRoomState) (currentIndex : Nat) (current : RoomPlayer)
    (diceValue effectiveDice : Int) (movingTokenIds : List Nat) (st : StackLoopState) :
    Except MoveErr MoveOutcome :=
  let workingTokens := applyCaptureResets st.merged st.working
  let hasWon := checkWinCondition workingTokens moveColorOf
  let winners1 := winnersAfterMove orderedPlayers moveColorOf hasWon state.gameBoard.winners
  let log1 := winnerLogAfterMove orderedPlayers moveColorOf hasWon state.gameBoard.winners
    state.gameBoard.gameLog
  let board1 : GameBoard :=
    { state.gameBoard with
        tokens := workingTokens
        winners := winners1
        gameLog := log1
        diceValue := none
        validMoves := []
        lastRollAt := none }
  let capturedTokenFirst := st.merged.head?
  let earnedExtraTurn := decide (diceValue = 6) || capturedTokenFirst.isSome || st.reachedHomeThisMove
  let gameCompleted := hasWon && decide (maxPlayers ≤ winners1.length)
  let base : MoveOutcome :=
    { state := state
      effectiveDice := effectiveDice
      movingTokenIds := movingTokenIds
      mergedCaptured := st.merged
      capturedToken := capturedTokenFirst
      earnedExtraTurn := earnedExtraTurn
      gameCompleted := gameCompleted
      reachedHomeThisMove := st.reachedHomeThisMove
      releasedFromBase := st.releasedFromBase
      enteredSafeCell := st.enteredSafeCell }
  if gameCompleted then
    .ok { base with state :=
      { state with
          status := .completed
          gameBoard := { board1 with gameLog := board1.gameLog ++ ["Game Over! All players finished."] } } }
  else if earnedExtraTurn then
    .ok { base with state :=
      { state with
          gameBoard :=
            { board1 with gameLog := board1.gameLog ++ [jsOr current.displayName "Player" ++ " earned an extra turn!"] } } }
  else
    let newIndex := advanceTurn currentIndex orderedPlayers board1.winners (mode ≠ .team)
    match orderedPlayers.get? newIndex with
    | none => .error .tsError
    | some nextP =>
      .ok { base with state :=
        { state with
            currentPlayerIndex := (newIndex : Int)
            gameBoard := { board1 with currentPlayerId := some nextP.rpId } } }

/-- `sameCellTokenIds` of `makeMove`: ids of the mover's same-color tokens
sharing its track cell (or just the mover when it is not on the track). -/
def sameCellIdsOf (tokens : Tokens) (moveColor : PlayerColor) (token : Token) (tokenId : Nat) :
    List Nat :=
  if onTrackInPlay token then
    ((lookupTokens tokens moveColor).filter
      (fun t => onTrackInPlay t && decide (t.position = token.position))).map (fun t => t.id)
  else [tokenId]

/-- `forcedStackMove` of `makeMove`: the mover shares a non-safe track cell
with at least one same-color token. -/
def forcedStackOf (tokens : Tokens) (moveColor : PlayerColor) (token : Token) (tokenId : Nat) :
    Bool :=
  onTrackInPlay token && decide (2 ≤ (sameCellIdsOf tokens moveColor token tokenId).length) &&
    !SAFE_INDICES.contains token.position

/-- The validated context `makeMove` reaches just before the stack loop. -/
structure MoveCtx where
  currentIndex : Nat
  current : RoomPlayer
  state : RuntimeRoomState
  token : Token
  sameCellTokenIds : List Nat
  forcedStackMove : Bool
  effectiveDice : Int
  movingTokenIds : List Nat
  deriving DecidableEq, Repr

/-- The validation section of `makeMove` (turn ownership, winner check, dice
match, team color, `validMoves` membership, token lookup, forced-stack
gate), in source order. -/
def makeMoveValidate (mode : RoomMode) (maxPlayers : Nat) (orderedPlayers : List RoomPlayer)
    (state0 : RuntimeRoomState) (userId : String) (tokenId : Nat) (moveColor : PlayerColor)
    (diceValue : Int) : Except MoveErr MoveCtx :=
  let currentIndex := getCurrentIndex state0.currentPlayerIndex state0.gameBoard.currentPlayerId orderedPlayers
  match orderedPlayers.get? currentIndex with
  | none => .error .tsError
  | some current =>
    let state := resolveTurnState state0 currentIndex current
    if current.userId ≠ userId then .error .notYourTurn
    else if state.gameBoard.winners.any (fun w => w.playerId = current.rpId) ∧ mode ≠ .team then
      .error .winnerCannotMove
    else if state.gameBoard.diceValue ≠ some diceValue then .error .diceMismatch
    else if moveColor ∉ getControllableColors mode maxPlayers current.color then .error .invalidTeamColor
    else if ¬ state.gameBoard.validMoves.any (fun m => m.1 = tokenId ∧ m.2 = moveColor) then
      .error .invalidMove
    else
      match (lookupTokens state.gameBoard.tokens moveColor).find? (fun t => t.id = tokenId) with
      | none => .error .tokenNotFound
      | some token =>
        let sameCellTokenIds := sameCellIdsOf state.gameBoard.tokens moveColor token tokenId
        let forcedStackMove := forcedStackOf state.gameBoard.tokens moveColor token tokenId
        if forcedStackMove ∧ Int.tmod diceValue 2 ≠ 0 then .error .invalidMove
        else
          let effectiveDice := if forcedStackMove then diceValue / 2 else diceValue
          if effectiveDice < 1 then .error .invalidMove
          else
            .ok { currentIndex := currentIndex
                  current := current
                  state := state
                  token := token
                  sameCellTokenIds := sameCellTokenIds
                  forcedStackMove := forcedStackMove
                  effectiveDice := effectiveDice
                  movingTokenIds := if forcedStackMove then sameCellTokenIds else [tokenId] }

/-- The pure core of `makeMove` (the body of the `runExclusive` task):
validation, then the per-stack-member rule-engine loop, then capture
resets, win detection and the turn branch. -/
def makeMoveCore (mode : RoomMode) (maxPlayers : Nat) (orderedPlayers : List RoomPlayer)
    (state0 : RuntimeRoomState) (userId : String) (tokenId : Nat) (moveColor : PlayerColor)
    (diceValue : Int) (enterHome : Bool) : Except MoveErr MoveOutcome :=
  makeMoveValidate mode maxPlayers orderedPlayers state0 userId tokenId moveColor diceValue >>=
    fun ctx =>
      match applyStackMoves (getGameConfig maxPlayers) moveColor ctx.effectiveDice enterHome
          (getControllableColors mode maxPlayers ctx.current.color) ctx.movingTokenIds
          { working := ctx.state.gameBoard.tokens, merged := [],
            reachedHomeThisMove := false, releasedFromBase := false,
            enteredSafeCell := false } with
      | none => .error .tsError
      | some st =>
        makeMoveFinish moveColor mode maxPlayers orderedPlayers ctx.state
          ctx.currentIndex ctx.current diceValue ctx.effectiveDice ctx.movingTokenIds st

/-- The values `rollDice` returns to the HTTP layer. -/
structure RollOutcome where
  state : RuntimeRoomState
  dice : Int
  valid : List (Nat × PlayerColor)
  deriving DecidableEq, Repr

/-- The pure core of `rollDice` (the body of the `runExclusive` task).  The
engagement engine's face and the `toISOString` timestamp enter as
parameters. -/
def rollDiceCore (mode : RoomMode) (maxPlayers : Nat) (orderedPlayers : List RoomPlayer)
    (state0 : RuntimeRoomState) (userId : String) (dice : Int) (nowIso : String) :
    Except MoveErr RollOutcome :=
  let currentIndex := getCurrentIndex state0.currentPlayerIndex state0.gameBoard.currentPlayerId orderedPlayers
  match orderedPlayers.get? currentIndex with
  | none => .error .tsError
  | some current =>
    let state := resolveTurnState state0 currentIndex current
    if current.userId ≠ userId then .error .notYourTurn
    else if state.gameBoard.winners.any (fun w => w.playerId = current.rpId) ∧ mode ≠ .team then
      .error .winnerCannotRoll
    else if state.gameBoard.diceValue ≠ none then .error .alreadyRolled
    else
      let config := getGameConfig maxPlayers
      let controllableColors := getControllableColors mode maxPlayers current.color
      let board1 := { state.gameBoard with diceValue := some dice, lastRollAt := some nowIso }
      let valid := findValidMoves board1.tokens current.color dice config controllableColors
      let board2 := { board1 with validMoves := valid }
      if valid.isEmpty then
        let newIndex := advanceTurn currentIndex orderedPlayers board2.winners (mode ≠ .team)
        match orderedPlayers.get? newIndex with
        | none => .error .tsError
        | some nextP =>
          .ok { state :=
                  { state with
                      currentPlayerIndex := (newIndex : Int)
                      gameBoard :=
                        { board2 with
                            currentPlayerId := some nextP.rpId
                            diceValue := none
                            validMoves := []
                            lastRollAt := none
                            gameLog := board2.gameLog ++ ["No move, turn skipped"] } }
                dice := dice
                valid := valid }
      else
        .ok { state := { state with gameBoard := board2 }, dice := dice, valid := valid }

/-- The revision/dirty effect of `GameStateCache.markDirty` on the cached
state (`state.dirty = true; state.revision = Number(state.revision || 0) + 1`). -/
def markDirtyState (s : RuntimeRoomState) : RuntimeRoomState :=
  { s with dirty := true, revision := s.revision + 1 }

/-- Shared-cache state key `ludo:room:{id}:state`. -/
def stateKey (roomId : String) : String := "ludo:room:" ++ roomId ++ ":state"

/-- Shared-cache move-log key `ludo:room:{id}:moves`. -/
def logKey (roomId : String) : String := "ludo:room:" ++ roomId ++ ":moves"

/-- The `GameStateCache` fields the claims are about: the in-memory room
state map and the set of keys present in the shared cache (values held
under the keys are abstracted away). -/
structure CacheModel where
  roomStates : List (String × RuntimeRoomState)
  redisKeys : List String
  deriving DecidableEq, Repr

/-- Association-list lookup (JS `Map.get`). -/
def alookup (l : List (String × RuntimeRoomState)) (k : String) : Option RuntimeRoomState :=
  match l.find? (fun e => e.1 = k) with
  | some e => some e.2
  | none => none

/-- Key insertion for the shared-cache key set (`setJson` / `pushLog`
create the key when absent). -/
def insertKey (keys : List String) (k : String) : List String :=
  if keys.contains k then keys else keys ++ [k]

/-- `GameStateCache.markDirty(roomId, event)`: no-op when the room is not
cached; otherwise bump the revision, set dirty, rewrite the shared-cache
state key, and push to the move log when an event name is supplied. -/
def cacheMarkDirty (c : CacheModel) (roomId : String) (event : Option String) : CacheModel :=
  match alookup c.roomStates roomId with
  | none => c
  | some s =>
    let s' := markDirtyState s
    { roomStates := c.roomStates.map (fun e => if e.1 = roomId then (e.1, s') else e)
      redisKeys :=
        match event with
        | some _ => insertKey (insertKey c.redisKeys (stateKey roomId)) (logKey roomId)
        | none => insertKey c.redisKeys (stateKey roomId) }

/-- `GameStateCache.evict(roomId)`: exactly `this.roomStates.delete(roomId)`
— the shared-cache keys are not touched. -/
def cacheEvict (c : CacheModel) (roomId : String) : CacheModel :=
  { c with roomStates := c.roomStates.filter (fun e => e.1 ≠ roomId) }

/-- `normalizeWithEntropyFloor(weights, floor)` of the probability
controller, over exact rationals. -/
def normalizeWithEntropyFloor (weights : List ℚ) (floorQ : ℚ) : List ℚ :=
  let safeWeights := weights.map (fun w => max (1 / 10000) w)
  let total := safeWeights.sum
  let probs := (safeWeights.map (fun w => w / total)).map (fun p => max floorQ p)
  let renorm := probs.sum
  probs.map (fun p => p / renorm)

/-- The skip-one-index redistribution loop of `enforceMinProbability`. -/
def redistributeLoop (deficit remaining : ℚ) (faceIndex : Nat) : Nat → List ℚ → List ℚ
  | _, [] => []
  | i, p :: rest =>
    (if i = faceIndex then p else max 0 (p - deficit * (p / remaining))) ::
      redistributeLoop deficit remaining faceIndex (i + 1) rest

/-- `enforceMinProbability(probs, faceIndex, minValue)`: raise one face to a
minimum probability, scaling the others down and renormalizing. -/
def enforceMinProbability (probs : List ℚ) (faceIndex : Nat) (minValue : ℚ) : List ℚ :=
  let minProb := max 0 (min minValue (95 / 100))
  let cur := probs.getD faceIndex 0
  if minProb ≤ cur then probs
  else
    let deficit := minProb - cur
    let remaining := 1 - cur
    if remaining ≤ 0 then probs
    else
      let next := (redistributeLoop deficit remaining faceIndex 0 probs).set faceIndex minProb
      let s := next.sum
      if 0 < s then next.map (fun p => p / s) else probs

/-- JS `Math.max(...list)` for the nonempty lists it is applied to. -/
def jsMax (l : List ℚ) : ℚ := l.foldl max (l.headD 0)

/-- The add-to-all-but-one-index step used twice in perception masking. -/
def addAllBut (k : Nat) (s : ℚ) : Nat → List ℚ → List ℚ
  | _, [] => []
  | i, p :: rest => (if i = k then p else p + s) :: addAllBut k s (i + 1) rest

/-- The per-element micro-jitter step, with the RNG draw for element `i`
supplied by `jit i`. -/
def jitterLoop (jit : Nat → ℚ) : Nat → List ℚ → List ℚ
  | _, [] => []
  | i, p :: rest =>
    max (1 / 10000) (p * (985 / 1000 + jit i * (3 / 100))) :: jitterLoop jit (i + 1) rest

/-- Momentum fields consumed by masking and the six-suppression step. -/
structure MomentumBits where
  repeatedValue : Option Int
  repeatCount : Nat
  deriving DecidableEq, Repr

/-- The blend / peak-cap / repeated-value-shave section of
`applyPerceptionMasking` (everything before the micro-jitter), with the
`blendAlpha` uniform draw as a parameter. -/
def maskBlendCap (probs : List ℚ) (momentum : MomentumBits) (alphaDraw : ℚ) : List ℚ :=
  let uniform := 1 / (probs.length : ℚ)
  let blendAlpha := 6 / 100 + alphaDraw * (8 / 100)
  let mixed0 := probs.map (fun p => p * (1 - blendAlpha) + uniform * blendAlpha)
  let maxVal := jsMax mixed0
  let maxIdx := (mixed0.findIdx? (fun p => p = maxVal)).getD mixed0.length
  let mixed1 :=
    if 46 / 100 < maxVal then
      let excess := maxVal - 46 / 100
      let spread := excess / ((mixed0.length : ℚ) - 1)
      addAllBut maxIdx spread 0 (mixed0.set maxIdx (46 / 100))
    else mixed0
  match momentum.repeatedValue with
  | some rv =>
    if 2 ≤ momentum.repeatCount then
      let idx := (rv - 1).toNat
      let shave := min (8 / 100) ((3 / 100) * (momentum.repeatCount : ℚ))
      let actual := min shave (mixed1.getD idx 0 * (4 / 10))
      addAllBut idx (actual / ((mixed1.length : ℚ) - 1)) 0
        (mixed1.set idx (mixed1.getD idx 0 - actual))
    else mixed1
  | none => mixed1

/-- The final line of `applyPerceptionMasking`:
`sum > 0 ? mixed.map(p => p / sum) : probs`. -/
def renormalizeOr (probs mixed : List ℚ) : List ℚ :=
  let s := mixed.sum
  if 0 < s then mixed.map (fun p => p / s) else probs

/-- `applyPerceptionMasking(probs, momentum)`: uniform blend, peak cap at
0.46, repeated-value shave, micro-jitter, final renormalization.  The RNG
draws (`blendAlpha`'s uniform and the per-element jitter) are parameters. -/
def applyPerceptionMasking (maskingEnabled : Bool) (probs : List ℚ) (momentum : MomentumBits)
    (alphaDraw : ℚ) (jit : Nat → ℚ) : List ℚ :=
  if !maskingEnabled then probs
  else renormalizeOr probs (jitterLoop jit 0 (maskBlendCap probs momentum alphaDraw))

/-- `sampleByWeights(normalizedWeights)` with the uniform draw `r` as a
parameter: first face whose cumulative weight reaches `r`, else 6. -/
def sampleByWeightsAux (r : ℚ) : Nat → ℚ → List ℚ → Nat
  | _, _, [] => 6
  | i, cum, w :: rest => if r ≤ cum + w then i + 1 else sampleByWeightsAux r (i + 1) (cum + w) rest

/-- `sampleByWeights` entry point. -/
def sampleByWeights (normalizedWeights : List ℚ) (r : ℚ) : Nat :=
  sampleByWeightsAux r 0 0 normalizedWeights

/-- `sampleWithoutSix(normalizedWeights)`: renormalize the first five faces
and sample; `fallback` models `crypto.randomInt(1, 6)` (a value in 1..5)
taken when the non-six mass vanishes. -/
def sampleWithoutSix (normalizedWeights : List ℚ) (r : ℚ) (fallback : Nat) : Nat :=
  let nonSix := normalizedWeights.take 5
  let total := (nonSix.map (fun v => max 0 v)).sum
  if total ≤ 0 then fallback
  else
    let normalized := nonSix.map (fun v => max 0 v / total)
    sampleByWeights (normalized ++ [0]) r

/-- The comeback inputs of the second-consecutive-six branch. -/
structure ComebackBits where
  behindGapPos : Bool
  luckDeltaLow : Bool
  killOrFinishSix : Bool
  allInBase : Bool
  deriving DecidableEq, Repr

/-- `rareThirdSixChance`: `max(0.1, min(0.35, 0.1 + comebackBoost))`. -/
def rareThirdSixChance (cb : ComebackBits) : ℚ :=
  let baseRareChance : ℚ := 1 / 10
  let comebackBoost :=
    (if cb.behindGapPos then 8 / 100 else 0) + (if cb.luckDeltaLow then 6 / 100 else 0) +
      (if cb.killOrFinishSix then 5 / 100 else 0) + (if cb.allInBase then 7 / 100 else 0)
  max (1 / 10) (min (35 / 100) (baseRareChance + comebackBoost))

/-- The triple-six suppression step of `generateEngagementDice`: given the
sampled `rolled` value, the momentum's trailing repeat run, and the RNG
draws, decide whether to resample without six. -/
def tripleSixSuppress (momentum : MomentumBits) (cb : ComebackBits) (rolled : Nat)
    (maskedNormalized : List ℚ) (rSample rFloat : ℚ) (fallback : Nat) : Nat :=
  let consecutiveSixCount := if momentum.repeatedValue = some 6 then momentum.repeatCount else 0
  if rolled = 6 ∧ 3 ≤ consecutiveSixCount then
    sampleWithoutSix maskedNormalized rSample fallback
  else if rolled = 6 ∧ 2 ≤ consecutiveSixCount then
    if rareThirdSixChance cb < rFloat then sampleWithoutSix maskedNormalized rSample fallback
    else rolled
  else rolled

/-- The status–position invariant of §8: `base ⇔ position = −1`,
`home|finished ⇔ position = 58`, otherwise `0 ≤ position ≤ 58`. -/
def tokenInv (t : Token) : Prop :=
  (t.status = .base ↔ t.position = -1) ∧
  ((t.status = .home ∨ t.status = .finished) ↔ t.position = 58) ∧
  ((t.status = .active ∨ t.status = .safe) → 0 ≤ t.position ∧ t.position ≤ 58)

instance (t : Token) : Decidable (tokenInv t) := by
  unfold tokenInv
  infer_instance

/-- A convenient base token literal. -/
def baseTok (c : PlayerColor) (i : Nat) : Token :=
  { id := i, color := c, status := .base, position := -1, steps := 0 }

/-- Concrete two-seat room (red vs yellow). -/
def twoPlayerSeats : List RoomPlayer :=
  [ { rpId := "p1", userId := "u1", color := .red, displayName := "Alice" },
    { rpId := "p2", userId := "u2", color := .yellow, displayName := "Bob" } ]

/-- The token record `updateRoomStatus` initializes for a 2-player game
(all eight color keys in `ALL_PLAYER_COLORS` order, active colors holding
four base tokens). -/
def initialTokens2 : Tokens :=
  [ (.red, (List.range 4).map (baseTok .red)),
    (.green, []),
    (.yellow, (List.range 4).map (baseTok .yellow)),
    (.blue, []), (.purple, []), (.orange, []), (.white, []), (.black, []) ]

/-- Runtime state right after game start in the 2-player scenario, red to
move. -/
def startState2 : RuntimeRoomState :=
  { status := .inProgress, currentPlayerIndex := 0,
    gameBoard := { tokens := initialTokens2, currentPlayerId := some "p1", diceValue := none,
                   validMoves := [], gameLog := ["Game started"], winners := [], lastRollAt := none },
    revision := 0, dirty := false }

/-- Scenario: red rolls a 6 (engagement face passed through). -/
def scenarioRoll : Except MoveErr RollOutcome :=
  rollDiceCore .individual 2 twoPlayerSeats startState2 "u1" 6 "t0"

/-- State after the roll and its `markDirty` revision bump. -/
def scenarioAfterRoll : RuntimeRoomState :=
  match scenarioRoll with
  | .ok r => markDirtyState r.state
  | .error _ => startState2

/-- Scenario: red moves token 0 out of base on the rolled 6. -/
def scenarioMove : Except MoveErr MoveOutcome :=
  makeMoveCore .individual 2 twoPlayerSeats scenarioAfterRoll "u1" 0 .red 6 true

/-- State after the move and its `markDirty` revision bump. -/
def scenarioFinal : Option RuntimeRoomState :=
  scenarioMove.toOption.map (fun o => markDirtyState o.state)

/-- Tokens for the turn-wrap scenario: red has one token on the open track,
yellow has finished all four tokens. -/
def wrapTokens : Tokens :=
  [ (.red, [{ id := 0, color := .red, status := .active, position := 2, steps := 2 },
            baseTok .red 1, baseTok .red 2, baseTok .red 3]),
    (.yellow, (List.range 4).map (fun i =>
      { id := i, color := .yellow, status := .home, position := 58, steps := 56 })) ]

/-- State for the turn-wrap scenario: yellow is already in `winners`, red
has rolled a 3 and moves a plain track token. -/
def wrapState : RuntimeRoomState :=
  { status := .inProgress, currentPlayerIndex := 0,
    gameBoard := { tokens := wrapTokens, currentPlayerId := some "p1", diceValue := some 3,
                   validMoves := [(0, .red)], gameLog := [],
                   winners := [{ playerId := "p2", rank := 1 }], lastRollAt := some "t" },
    revision := 5, dirty := false }

/-- The turn-wrap move: a successful non-6, non-capture, non-home move. -/
def wrapMove : Except MoveErr MoveOutcome :=
  makeMoveCore .individual 2 twoPlayerSeats wrapState "u1" 0 .red 3 true

/-- A placeholder outcome for `Option.getD` on scenario results. -/
def emptyOutcome : MoveOutcome :=
  { state := startState2, effectiveDice := 0, movingTokenIds := [], mergedCaptured := [],
    capturedToken := none, earnedExtraTurn := false, gameCompleted := false,
    reachedHomeThisMove := false, releasedFromBase := false, enteredSafeCell := false }

/-- The concrete outcome of the turn-wrap move. -/
def wrapOut : MoveOutcome := wrapMove.toOption.getD emptyOutcome

/-- Concrete four-seat team room (red+yellow vs green+blue). -/
def fourTeamSeats : List RoomPlayer :=
  [ { rpId := "p1", userId := "u1", color := .red, displayName := "A" },
    { rpId := "p2", userId := "u2", color := .green, displayName := "B" },
    { rpId := "p3", userId := "u3", color := .yellow, displayName := "C" },
    { rpId := "p4", userId := "u4", color := .blue, displayName := "D" } ]

/-- Tokens for the team blockade-break scenario: a red stack of two on
cell 10, a green blockade of two on cell 12. -/
def teamStackTokens : Tokens :=
  [ (.red, [{ id := 0, color := .red, status := .active, position := 10, steps := 4 },
            { id := 1, color := .red, status := .active, position := 10, steps := 4 },
            baseTok .red 2, baseTok .red 3]),
    (.green, [{ id := 0, color := .green, status := .active, position := 12, steps := 51 },
              { id := 1, color := .green, status := .active, position := 12, steps := 51 },
              baseTok .green 2, baseTok .green 3]),
    (.yellow, (List.range 4).map (baseTok .yellow)),
    (.blue, (List.range 4).map (baseTok .blue)) ]

/-- State for the team blockade-break scenario, red to move on dice 4. -/
def teamStackState : RuntimeRoomState :=
  { status := .inProgress, currentPlayerIndex := 0,
    gameBoard := { tokens := teamStackTokens, currentPlayerId := some "p1", diceValue := some 4,
                   validMoves := [(0, .red)], gameLog := [], winners := [], lastRollAt := some "t" },
    revision := 9, dirty := false }

/-- The team blockade-break move (dice 4, effective 2 per stack member). -/
def teamStackMove : Except MoveErr MoveOutcome :=
  makeMoveCore .team 4 fourTeamSeats teamStackState "u1" 0 .red 4 true

/-- Its concrete outcome. -/
def teamStackOut : MoveOutcome := teamStackMove.toOption.getD emptyOutcome

/-- A placeholder context for `Option.getD` on validation results. -/
def defaultCtx : MoveCtx :=
  { currentIndex := 0,
    current := { rpId := "", userId := "", color := .red, displayName := "" },
    state := startState2, token := baseTok .red 0, sameCellTokenIds := [],
    forcedStackMove := false, effectiveDice := 0, movingTokenIds := [] }

/-- The concrete validated context of the team blockade-break move. -/
def teamStackCtx : MoveCtx :=
  (makeMoveValidate .team 4 fourTeamSeats teamStackState "u1" 0 .red 4).toOption.getD defaultCtx

/-- Tokens for the mixed-color capture scenario: red moves onto cell 7
occupied by one green and one blue token (two enemies, different colors). -/
def mixedCellTokens : Tokens :=
  [ (.red, [{ id := 0, color := .red, status := .active, position := 4, steps := 4 }]),
    (.green, [{ id := 0, color := .green, status := .active, position := 7, steps := 46 }]),
    (.yellow, []),
    (.blue, [{ id := 1, color := .blue, status := .active, position := 7, steps := 20 }]) ]

/-- Concrete cache with one cached room and both shared-cache keys
present. -/
def cacheEx : CacheModel :=
  { roomStates := [("r1", startState2)],
    redisKeys := [stateKey "r1", logKey "r1"] }

/-! ## Helper lemmas -/

theorem resolveTurnState_tokens (s : RuntimeRoomState) (ci : Nat) (cur : RoomPlayer) :
    (resolveTurnState s ci cur).gameBoard.tokens = s.gameBoard.tokens := rfl

theorem resolveTurnState_winners (s : RuntimeRoomState) (ci : Nat) (cur : RoomPlayer) :
    (resolveTurnState s ci cur).gameBoard.winners = s.gameBoard.winners := rfl

theorem resolveTurnState_diceValue (s : RuntimeRoomState) (ci : Nat) (cur : RoomPlayer) :
    (resolveTurnState s ci cur).gameBoard.diceValue = s.gameBoard.diceValue := rfl

theorem resolveTurnState_validMoves (s : RuntimeRoomState) (ci : Nat) (cur : RoomPlayer) :
    (resolveTurnState s ci cur).gameBoard.validMoves = s.gameBoard.validMoves := rfl

theorem alookup_nil (k : String) : alookup [] k = none := rfl

theorem alookup_update (l : List (String × RuntimeRoomState)) (k : String) (s' : RuntimeRoomState) :
    alookup (l.map (fun e => if e.1 = k then (e.1, s') else e)) k =
      (alookup l k).map (fun _ => s') := by
  induction l with
  | nil => rfl
  | cons e t ih =>
    by_cases he : e.1 = k
    · simp [alookup, List.find?_cons, he]
    · simpa [alookup, List.find?_cons, he] using ih

theorem alookup_filter_ne (l : List (String × RuntimeRoomState)) (k : String) :
    alookup (l.filter (fun e => e.1 ≠ k)) k = none := by
  have h : ∀ e ∈ l.filter (fun e => e.1 ≠ k), ¬ (e.1 = k) := by
    intro e he
    have := List.of_mem_filter he
    simpa using this
  simp only [alookup]
  rw [List.find?_eq_none.mpr (fun e he => by simpa using h e he)]

theorem markDirtyState_iterate_revision (s : RuntimeRoomState) :
    ∀ n : Nat, (markDirtyState^[n] s).revision = s.revision + n := by
  intro n
  induction n with
  | zero => simp
  | succ n ih =>
    rw [Function.iterate_succ_apply']
    simp [markDirtyState, ih]
    omega

/-! ## C5 — revision increments by exactly one per mutation -/

/-- C5: every mutation recorded through `markDirty` on a cached state bumps
the room revision by exactly one (`newRevision = oldRevision + 1`), and
consequently the revisions stamped by successive mutations are strictly
increasing. -/
theorem C5_revision_increment :
    (∀ (c : CacheModel) (roomId : String) (event : Option String) (s : RuntimeRoomState),
        alookup c.roomStates roomId = some s →
          alookup (cacheMarkDirty c roomId event).roomStates roomId = some (markDirtyState s) ∧
            (markDirtyState s).revision = s.revision + 1) ∧
    (∀ (s : RuntimeRoomState) (m n : Nat), m < n →
        (markDirtyState^[m] s).revision < (markDirtyState^[n] s).revision) := by
  constructor
  · intro c roomId event s h
    refine ⟨?_, rfl⟩
    simp only [cacheMarkDirty, h]
    rw [alookup_update, h]
    rfl
  · intro s m n hmn
    rw [markDirtyState_iterate_revision, markDirtyState_iterate_revision]
    omega

/-- Witness for C5 at a concrete cache and mutation counts. -/
theorem C5_revision_increment_witness :
    (alookup (cacheMarkDirty cacheEx "r1" (some "move")).roomStates "r1" =
        some (markDirtyState startState2) ∧
      (markDirtyState startState2).revision = startState2.revision + 1) ∧
    (markDirtyState^[1] startState2).revision < (markDirtyState^[3] startState2).revision :=
  ⟨C5_revision_increment.1 cacheEx "r1" (some "move") startState2 (by decide),
   C5_revision_increment.2 startState2 1 3 (by decide)⟩

/-! ## C10 — eviction drops only the in-memory entry -/

/-- C10 counterexample: after `evict`, the room's shared-cache state and
move-log keys are still present — `evict` does not drop them, contrary to
the claim. -/
theorem C10_counterexample :
    alookup (cacheEvict cacheEx "r1").roomStates "r1" = none ∧
      stateKey "r1" ∈ (cacheEvict cacheEx "r1").redisKeys ∧
      logKey "r1" ∈ (cacheEvict cacheEx "r1").redisKeys := by
  refine ⟨?_, by decide, by decide⟩
  exact alookup_filter_ne _ _

/-- C10 as amended: `evict` removes the room's in-memory runtime-state
entry and leaves the shared-cache key set entirely unchanged (stale
shared-cache copies survive until their TTL expires). -/
theorem C10_evict_memory_only (c : CacheModel) (roomId : String) :
    alookup (cacheEvict c roomId).roomStates roomId = none ∧
      (cacheEvict c roomId).redisKeys = c.redisKeys :=
  ⟨alookup_filter_ne c.roomStates roomId, rfl⟩

theorem sum_map_div (l : List ℚ) (c : ℚ) : (l.map (fun x => x / c)).sum = l.sum / c := by
  induction l with
  | nil => simp
  | cons a t ih => simp [ih, add_div]

theorem sampleByWeightsAux_append_le (r : ℚ) :
    ∀ (l1 l2 : List ℚ) (i : Nat) (cum : ℚ),
      l1 ≠ [] → (∀ w ∈ l1, 0 ≤ w) → r ≤ cum + l1.sum →
      sampleByWeightsAux r i cum (l1 ++ l2) ≤ i + l1.length := by
  intro l1
  induction l1 with
  | nil => intro l2 i cum h; exact absurd rfl h
  | cons w rest ih =>
    intro l2 i cum _ hnn hr
    simp only [List.cons_append, sampleByWeightsAux]
    by_cases hcase : r ≤ cum + w
    · rw [if_pos hcase]
      simp only [List.length_cons]
      omega
    · rw [if_neg hcase]
      cases rest with
      | nil =>
        exfalso
        simp only [List.sum_cons, List.sum_nil, add_zero] at hr
        exact hcase (by linarith)
      | cons b bs =>
        have hb := ih l2 (i + 1) (cum + w) (by simp)
          (fun x hx => hnn x (List.mem_cons_of_mem w hx))
          (by simp only [List.sum_cons] at hr ⊢; linarith)
        simp only [List.cons_append, List.append_eq, List.length_cons] at hb ⊢
        omega
theorem sampleWithoutSix_ne_six (weights : List ℚ) (r : ℚ) (fallback : Nat)
    (hr : r ≤ 1) (hf1 : 1 ≤ fallback) (hf5 : fallback ≤ 5) :
    sampleWithoutSix weights r fallback ≠ 6 := by
  unfold sampleWithoutSix
  by_cases h : ((weights.take 5).map (fun v => max 0 v)).sum ≤ 0
  · rw [if_pos h]
    omega
  · rw [if_neg h]
    push_neg at h
    have hcomp : (weights.take 5).map (fun v => max 0 v / ((weights.take 5).map (fun v => max 0 v)).sum) =
        ((weights.take 5).map (fun v => max 0 v)).map
          (fun x => x / ((weights.take 5).map (fun v => max 0 v)).sum) := by
      rw [List.map_map]
      rfl
    have hsum : ((weights.take 5).map (fun v => max 0 v / ((weights.take 5).map (fun v => max 0 v)).sum)).sum = 1 := by
      rw [hcomp, sum_map_div, div_self (ne_of_gt h)]
    have hne : (weights.take 5).map (fun v => max 0 v / ((weights.take 5).map (fun v => max 0 v)).sum) ≠ [] := by
      intro hempty
      rw [hempty] at hsum
      simp at hsum
    have hnn : ∀ w ∈ (weights.take 5).map (fun v => max 0 v / ((weights.take 5).map (fun v => max 0 v)).sum), 0 ≤ w := by
      intro w hw
      obtain ⟨v, _, rfl⟩ := List.mem_map.mp hw
      exact div_nonneg (le_max_left 0 v) h.le
    have hb := sampleByWeightsAux_append_le r _ [0] 0 0 hne hnn (by rw [hsum]; linarith)
    have hlen : ((weights.take 5).map (fun v => max 0 v / ((weights.take 5).map (fun v => max 0 v)).sum)).length ≤ 5 := by
      rw [List.length_map, List.length_take]
      omega
    show ¬ sampleByWeightsAux r 0 0
      (List.map (fun v => (0 ⊔ v) / (List.map (fun v => 0 ⊔ v) (List.take 5 weights)).sum) (List.take 5 weights) ++
        [0]) = 6
    omega

/-! ## C9 — triple-six suppression -/

/-- C9 as amended: the unconditional resample-without-six fires only when
the trailing run of sixes already has length ≥ 3 (the sample would be at
least the fourth consecutive six); with exactly two preceding consecutive
sixes the engine keeps the sampled 6 whenever the uniform draw falls at or
below `rareThirdSixChance`, which lies in [0.10, 0.35] (so the resample
probability is at most 90 %, base case, reduced by comeback factors) — a
third consecutive six can therefore be returned. -/
theorem C9_six_suppression :
    (∀ (m : MomentumBits) (cb : ComebackBits) (masked : List ℚ) (r rf : ℚ) (fb : Nat),
        m.repeatedValue = some 6 → 3 ≤ m.repeatCount → r ≤ 1 → 1 ≤ fb → fb ≤ 5 →
        tripleSixSuppress m cb 6 masked r rf fb ≠ 6) ∧
    (∀ (m : MomentumBits) (cb : ComebackBits) (masked : List ℚ) (r rf : ℚ) (fb : Nat),
        m.repeatedValue = some 6 → m.repeatCount = 2 → rf ≤ rareThirdSixChance cb →
        tripleSixSuppress m cb 6 masked r rf fb = 6) ∧
    (∀ cb : ComebackBits,
        (1 : ℚ) / 10 ≤ rareThirdSixChance cb ∧ rareThirdSixChance cb ≤ 35 / 100) := by
  refine ⟨?_, ?_, ?_⟩
  · intro m cb masked r rf fb hrv hcount hr hf1 hf5
    unfold tripleSixSuppress
    rw [hrv]
    rw [if_pos ⟨rfl, by simpa using hcount⟩]
    exact sampleWithoutSix_ne_six masked r fb hr hf1 hf5
  · intro m cb masked r rf fb hrv hcount hrf
    unfold tripleSixSuppress
    rw [hrv, hcount]
    rw [if_neg (by simp), if_pos ⟨rfl, by simp⟩, if_neg (by simpa using hrf)]
  · intro cb
    obtain ⟨b1, b2, b3, b4⟩ := cb
    cases b1 <;> cases b2 <;> cases b3 <;> cases b4 <;>
      refine ⟨by norm_num [rareThirdSixChance], by norm_num [rareThirdSixChance]⟩

/-- Witness for C9 at concrete momentum, comeback and RNG values. -/
theorem C9_six_suppression_witness :
    (tripleSixSuppress { repeatedValue := some 6, repeatCount := 3 }
        { behindGapPos := false, luckDeltaLow := false, killOrFinishSix := false, allInBase := false }
        6 [1/6, 1/6, 1/6, 1/6, 1/6, 1/6] (1/2) (1/100) 3 ≠ 6) ∧
    (tripleSixSuppress { repeatedValue := some 6, repeatCount := 2 }
        { behindGapPos := false, luckDeltaLow := false, killOrFinishSix := false, allInBase := false }
        6 [1/6, 1/6, 1/6, 1/6, 1/6, 1/6] (1/2) (1/100) 3 = 6) ∧
    ((1 : ℚ) / 10 ≤ rareThirdSixChance
        { behindGapPos := true, luckDeltaLow := false, killOrFinishSix := false, allInBase := false } ∧
      rareThirdSixChance
        { behindGapPos := true, luckDeltaLow := false, killOrFinishSix := false, allInBase := false } ≤ 35 / 100) :=
  ⟨C9_six_suppression.1 _ _ _ _ _ _ rfl (by norm_num) (by norm_num) (by norm_num) (by norm_num),
   C9_six_suppression.2.1 _ _ _ _ _ _ rfl rfl (by norm_num [rareThirdSixChance]),
   C9_six_suppression.2.2 _⟩

/-- C9 counterexample: with exactly two consecutive preceding sixes (the
sample would be the third consecutive six) and an unlucky draw, the engine
returns the 6 — `generateEngagementDice` can return a third consecutive
six, and the unconditional resample is reserved for the fourth. -/
theorem C9_counterexample :
    tripleSixSuppress { repeatedValue := some 6, repeatCount := 2 }
      { behindGapPos := false, luckDeltaLow := false, killOrFinishSix := false, allInBase := false }
      6 [1/6, 1/6, 1/6, 1/6, 1/6, 1/6] (1/2) (1/100) 3 = 6 ∧
    rareThirdSixChance
      { behindGapPos := false, luckDeltaLow := false, killOrFinishSix := false, allInBase := false } =
      1 / 10 := by
  constructor
  · norm_num [tripleSixSuppress, rareThirdSixChance]
  · norm_num [rareThirdSixChance]

/-! ## C8 — normalization, entropy floor, masking -/

theorem sum_map_add_left (l : List ℚ) (c : ℚ) (f : ℚ → ℚ) :
    (l.map (fun x => c + f x)).sum = l.length * c + (l.map f).sum := by
  induction l with
  | nil => simp
  | cons a t ih =>
    simp only [List.map_cons, List.sum_cons, List.length_cons]
    rw [ih]
    push_cast
    ring

theorem normalizeWithEntropyFloor_spec (weights : List ℚ) (floorQ : ℚ)
    (hlen : weights.length = 6) (hfl : 0 ≤ floorQ) :
    (normalizeWithEntropyFloor weights floorQ).sum = 1 ∧
      ∀ p ∈ normalizeWithEntropyFloor weights floorQ, floorQ / (1 + 6 * floorQ) ≤ p := by
  have hswpos : ∀ x ∈ weights.map (fun w => max (1 / 10000) w), 0 < x := by
    intro x hx
    obtain ⟨w, _, rfl⟩ := List.mem_map.mp hx
    exact lt_of_lt_of_le (by norm_num) (le_max_left _ _)
  have hswnil : weights.map (fun w => max (1 / 10000) w) ≠ [] := by
    intro h
    have := congrArg List.length h
    simp [hlen] at this
  have htot : 0 < (weights.map (fun w => max (1 / 10000) w)).sum :=
    List.sum_pos _ hswpos hswnil
  have hM : ((weights.map (fun w => max (1 / 10000) w)).map
        (fun w => w / (weights.map (fun w => max (1 / 10000) w)).sum)).map
          (fun p => max floorQ p) =
      (weights.map (fun w => max (1 / 10000) w)).map
        (fun w => max floorQ (w / (weights.map (fun w => max (1 / 10000) w)).sum)) := by
    rw [List.map_map]
    rfl
  have hsum1 : ((weights.map (fun w => max (1 / 10000) w)).map
      (fun w => w / (weights.map (fun w => max (1 / 10000) w)).sum)).sum = 1 := by
    rw [sum_map_div, div_self (ne_of_gt htot)]
  have hRge : 1 ≤ (((weights.map (fun w => max (1 / 10000) w)).map
      (fun w => w / (weights.map (fun w => max (1 / 10000) w)).sum)).map
        (fun p => max floorQ p)).sum := by
    rw [hM]
    calc (1 : ℚ) = ((weights.map (fun w => max (1 / 10000) w)).map
          (fun w => w / (weights.map (fun w => max (1 / 10000) w)).sum)).sum := hsum1.symm
      _ ≤ _ := List.sum_le_sum (fun w _ => le_max_right _ _)
  have hRle : (((weights.map (fun w => max (1 / 10000) w)).map
      (fun w => w / (weights.map (fun w => max (1 / 10000) w)).sum)).map
        (fun p => max floorQ p)).sum ≤ 1 + 6 * floorQ := by
    rw [hM]
    have hstep : ((weights.map (fun w => max (1 / 10000) w)).map
        (fun w => max floorQ (w / (weights.map (fun w => max (1 / 10000) w)).sum))).sum ≤
        ((weights.map (fun w => max (1 / 10000) w)).map
          (fun w => floorQ + w / (weights.map (fun w => max (1 / 10000) w)).sum)).sum := by
      refine List.sum_le_sum (fun w hw => ?_)
      have hwpos : 0 < w := hswpos w hw
      have hdiv : 0 ≤ w / (weights.map (fun w => max (1 / 10000) w)).sum :=
        div_nonneg hwpos.le htot.le
      exact max_le (le_add_of_nonneg_right hdiv) (le_add_of_nonneg_left hfl)
    refine le_trans hstep ?_
    rw [sum_map_add_left, hsum1, List.length_map, hlen]
    push_cast
    linarith
  have hRpos : 0 < (((weights.map (fun w => max (1 / 10000) w)).map
      (fun w => w / (weights.map (fun w => max (1 / 10000) w)).sum)).map
        (fun p => max floorQ p)).sum := lt_of_lt_of_le one_pos hRge
  constructor
  · show ((((weights.map (fun w => max (1 / 10000) w)).map
        (fun w => w / (weights.map (fun w => max (1 / 10000) w)).sum)).map
          (fun p => max floorQ p)).map
            (fun p => p / (((weights.map (fun w => max (1 / 10000) w)).map
              (fun w => w / (weights.map (fun w => max (1 / 10000) w)).sum)).map
                (fun p => max floorQ p)).sum)).sum = 1
    rw [sum_map_div, div_self (ne_of_gt hRpos)]
  · intro p hp
    have hp' : p ∈ (((weights.map (fun w => max (1 / 10000) w)).map
        (fun w => w / (weights.map (fun w => max (1 / 10000) w)).sum)).map
          (fun p => max floorQ p)).map
            (fun p => p / (((weights.map (fun w => max (1 / 10000) w)).map
              (fun w => w / (weights.map (fun w => max (1 / 10000) w)).sum)).map
                (fun p => max floorQ p)).sum) := hp
    obtain ⟨x, hxmem, rfl⟩ := List.mem_map.mp hp'
    have hxge : floorQ ≤ x := by
      obtain ⟨y, _, rfl⟩ := List.mem_map.mp hxmem
      exact le_max_left _ _
    have hx0 : 0 ≤ x := le_trans hfl hxge
    exact div_le_div₀ hx0 hxge hRpos hRle

theorem enforceMinProbability_sum (probs : List ℚ) (faceIndex : Nat) (minValue : ℚ)
    (hsum : probs.sum = 1) : (enforceMinProbability probs faceIndex minValue).sum = 1 := by
  unfold enforceMinProbability
  dsimp only
  split_ifs with h1 h2 h3
  · exact hsum
  · exact hsum
  · rw [sum_map_div, div_self (ne_of_gt h3)]
  · exact hsum

theorem addAllBut_length (k : Nat) (s : ℚ) : ∀ (i : Nat) (l : List ℚ),
    (addAllBut k s i l).length = l.length := by
  intro i l
  induction l generalizing i with
  | nil => rfl
  | cons a t ih => simp [addAllBut, ih]

theorem jitterLoop_length (jit : Nat → ℚ) : ∀ (i : Nat) (l : List ℚ),
    (jitterLoop jit i l).length = l.length := by
  intro i l
  induction l generalizing i with
  | nil => rfl
  | cons a t ih => simp [jitterLoop, ih]

theorem jitterLoop_ge (jit : Nat → ℚ) : ∀ (i : Nat) (l : List ℚ),
    ∀ x ∈ jitterLoop jit i l, (1 : ℚ) / 10000 ≤ x := by
  intro i l
  induction l generalizing i with
  | nil => intro x hx; cases hx
  | cons a t ih =>
    intro x hx
    simp only [jitterLoop, List.mem_cons] at hx
    rcases hx with rfl | hx
    · exact le_max_left _ _
    · exact ih _ x hx

theorem maskBlendCap_length (probs : List ℚ) (momentum : MomentumBits) (alphaDraw : ℚ) :
    (maskBlendCap probs momentum alphaDraw).length = probs.length := by
  unfold maskBlendCap
  dsimp only
  split <;> split_ifs <;>
    simp [addAllBut_length, List.length_set, List.length_map]

theorem applyPerceptionMasking_sum (probs : List ℚ) (momentum : MomentumBits)
    (alphaDraw : ℚ) (jit : Nat → ℚ) (hne : probs ≠ []) :
    (applyPerceptionMasking true probs momentum alphaDraw jit).sum = 1 := by
  unfold applyPerceptionMasking renormalizeOr
  dsimp only
  simp only [Bool.not_true, Bool.false_eq_true, if_false]
  have hlen : (jitterLoop jit 0 (maskBlendCap probs momentum alphaDraw)).length = probs.length := by
    rw [jitterLoop_length, maskBlendCap_length]
  have hjne : jitterLoop jit 0 (maskBlendCap probs momentum alphaDraw) ≠ [] := by
    intro h
    rw [h] at hlen
    exact hne (List.length_eq_zero.mp hlen.symm)
  have hpos : 0 < (jitterLoop jit 0 (maskBlendCap probs momentum alphaDraw)).sum := by
    refine List.sum_pos _ (fun x hx => ?_) hjne
    exact lt_of_lt_of_le (by norm_num) (jitterLoop_ge jit 0 _ x hx)
  rw [if_pos hpos, sum_map_div, div_self (ne_of_gt hpos)]

/-- C8 as amended: the normalized vector produced by
`normalizeWithEntropyFloor` sums to exactly 1 and every component is at
least `entropyFloor / (1 + 6·entropyFloor)` — but not necessarily
`entropyFloor` itself, because the floor is applied before the final
renormalization; the distributions produced by the minimum-six guard and
by perception masking still sum to exactly 1. -/
theorem C8_distribution_normalization :
    (∀ (weights : List ℚ) (floorQ : ℚ), weights.length = 6 → 0 ≤ floorQ →
        (normalizeWithEntropyFloor weights floorQ).sum = 1 ∧
          ∀ p ∈ normalizeWithEntropyFloor weights floorQ, floorQ / (1 + 6 * floorQ) ≤ p) ∧
    (∀ (probs : List ℚ) (faceIndex : Nat) (minValue : ℚ), probs.sum = 1 →
        (enforceMinProbability probs faceIndex minValue).sum = 1) ∧
    (∀ (probs : List ℚ) (momentum : MomentumBits) (alphaDraw : ℚ) (jit : Nat → ℚ),
        probs ≠ [] → (applyPerceptionMasking true probs momentum alphaDraw jit).sum = 1) :=
  ⟨normalizeWithEntropyFloor_spec,
   fun probs faceIndex minValue h => enforceMinProbability_sum probs faceIndex minValue h,
   fun probs momentum alphaDraw jit h => applyPerceptionMasking_sum probs momentum alphaDraw jit h⟩

/-- Witness for C8 at concrete weight vectors. -/
theorem C8_distribution_normalization_witness :
    ((normalizeWithEntropyFloor [1, 1, 1, 1, 1, 1] (1 / 20)).sum = 1 ∧
      ∀ p ∈ normalizeWithEntropyFloor [1, 1, 1, 1, 1, 1] (1 / 20),
        (1 / 20 : ℚ) / (1 + 6 * (1 / 20)) ≤ p) ∧
    (enforceMinProbability [1/6, 1/6, 1/6, 1/6, 1/6, 1/6] 5 (1/10)).sum = 1 ∧
    (applyPerceptionMasking true [1/6, 1/6, 1/6, 1/6, 1/6, 1/6]
      { repeatedValue := some 6, repeatCount := 2 } (1/2) (fun _ => 1/2)).sum = 1 :=
  ⟨C8_distribution_normalization.1 [1, 1, 1, 1, 1, 1] (1 / 20) (by norm_num) (by norm_num),
   C8_distribution_normalization.2.1 [1/6, 1/6, 1/6, 1/6, 1/6, 1/6] 5 (1/10) (by norm_num),
   C8_distribution_normalization.2.2 [1/6, 1/6, 1/6, 1/6, 1/6, 1/6]
     { repeatedValue := some 6, repeatCount := 2 } (1/2) (fun _ => 1/2)
     (List.cons_ne_nil _ _)⟩

/-- C8 counterexample: with weights `[1,1,1,1,1,1000]` and the default
floor 0.05, the first five components of the normalized vector are
201/5005 ≈ 0.0402 < 0.05 — the entropy-floor bound is violated by the
renormalization, refuting "every component ≥ entropyFloor". -/
theorem C8_counterexample :
    ¬ (∀ p ∈ normalizeWithEntropyFloor [1, 1, 1, 1, 1, 1000] (1 / 20), (1 / 20 : ℚ) ≤ p) := by
  intro h
  have hmem : (201 : ℚ) / 5005 ∈ normalizeWithEntropyFloor [1, 1, 1, 1, 1, 1000] (1 / 20) := by
    norm_num [normalizeWithEntropyFloor]
  have := h _ hmem
  norm_num at this

/-! ## C6 — 2-player base-release scenario -/

/-- C6 counterexample: in the 2-player scenario, red rolls 6 and releases
token 0; the token lands on cell 0 (a safe cell) but the base-release
branch of `applyMove` sets status `active` unconditionally — not `safe`
as the claim states. -/
theorem C6_counterexample :
    (scenarioMove.toOption.map (fun o =>
        ((lookupTokens o.state.gameBoard.tokens .red).find? (fun t => t.id = 0)).map
          Token.status)) = some (some .active) ∧
      TokenStatus.active ≠ TokenStatus.safe := by
  constructor
  · decide
  · decide

/-- C6 as amended: red's roll of 6 yields valid moves for all four base
tokens; moving token 0 puts it on position 0 (red's `homeStart`) with
status `active` (the base-release branch never assigns `safe`, even on a
safe cell) and steps 0; red keeps the turn (extra turn for the 6); and the
revision grows by exactly 2 across the roll and the move. -/
theorem C6_scenario_base_release :
    (scenarioRoll.toOption.map (fun r => (r.valid, r.state.gameBoard.diceValue))) =
      some ([(0, .red), (1, .red), (2, .red), (3, .red)], some 6) ∧
    (scenarioMove.toOption.map (fun o =>
        ((lookupTokens o.state.gameBoard.tokens .red).find? (fun t => t.id = 0),
          o.earnedExtraTurn, o.state.currentPlayerIndex, o.state.gameBoard.currentPlayerId))) =
      some (some { id := 0, color := .red, status := .active, position := 0, steps := 0 },
        true, 0, some "p1") ∧
    (scenarioFinal.map (fun s => s.revision)) = some (startState2.revision + 2) := by
  refine ⟨?_, ?_, ?_⟩ <;> decide

/-! ## makeMove inversion lemmas -/

theorem makeMoveFinish_ok_spec {mc : PlayerColor} {mode : RoomMode} {mp : Nat}
    {ps : List RoomPlayer} {state : RuntimeRoomState} {ci : Nat} {cur : RoomPlayer}
    {dice eff : Int} {mids : List Nat} {st : StackLoopState} {out : MoveOutcome}
    (h : makeMoveFinish mc mode mp ps state ci cur dice eff mids st = .ok out) :
    out.effectiveDice = eff ∧
    out.movingTokenIds = mids ∧
    out.mergedCaptured = st.merged ∧
    out.reachedHomeThisMove = st.reachedHomeThisMove ∧
    out.earnedExtraTurn = (decide (dice = 6) || st.merged.head?.isSome || st.reachedHomeThisMove) ∧
    out.state.gameBoard.tokens = applyCaptureResets st.merged st.working ∧
    (out.gameCompleted = true →
        out.state.status = .completed ∧ out.state.currentPlayerIndex = state.currentPlayerIndex) ∧
    (out.gameCompleted = false → out.earnedExtraTurn = true →
        out.state.currentPlayerIndex = state.currentPlayerIndex ∧ out.state.status = state.status) ∧
    (out.gameCompleted = false → out.earnedExtraTurn = false →
        out.state.status = state.status ∧
        out.state.currentPlayerIndex =
          ((advanceTurn ci ps out.state.gameBoard.winners (mode ≠ .team) : Nat) : Int)) := by
  unfold makeMoveFinish at h
  dsimp only at h
  split_ifs at h with hgc het
  · cases h
    refine ⟨rfl, rfl, rfl, rfl, rfl, rfl, fun _ => ⟨rfl, rfl⟩, fun hc _ => ?_, fun hc _ => ?_⟩
    · exact absurd hc (by simp [hgc])
    · exact absurd hc (by simp [hgc])
  · cases h
    refine ⟨rfl, rfl, rfl, rfl, rfl, rfl, fun hc => ?_, fun _ _ => ⟨rfl, rfl⟩, fun _ he => ?_⟩
    · exact absurd hc (by simp [hgc])
    · exact absurd he (by simp [het])
  · rcases hnext : ps.get? (advanceTurn ci ps
        (winnersAfterMove ps mc (checkWinCondition (applyCaptureResets st.merged st.working) mc)
          state.gameBoard.winners) (mode ≠ .team)) with hnone | hsome
    all_goals rw [hnext] at h
    · cases h
    · cases h
      refine ⟨rfl, rfl, rfl, rfl, rfl, rfl, fun hc => ?_, fun _ he => ?_, fun _ _ => ⟨rfl, rfl⟩⟩
      · exact absurd hc (by simp [hgc])
      · exact absurd he (by simp [het])

theorem makeMoveCore_ok_inv {mode : RoomMode} {mp : Nat} {ps : List RoomPlayer}
    {state0 : RuntimeRoomState} {userId : String} {tokenId : Nat} {moveColor : PlayerColor}
    {dice : Int} {enterHome : Bool} {out : MoveOutcome}
    (h : makeMoveCore mode mp ps state0 userId tokenId moveColor dice enterHome = .ok out) :
    ∃ ctx st,
      makeMoveValidate mode mp ps state0 userId tokenId moveColor dice = .ok ctx ∧
      applyStackMoves (getGameConfig mp) moveColor ctx.effectiveDice enterHome
        (getControllableColors mode mp ctx.current.color) ctx.movingTokenIds
        { working := ctx.state.gameBoard.tokens, merged := [], reachedHomeThisMove := false,
          releasedFromBase := false, enteredSafeCell := false } = some st ∧
      makeMoveFinish moveColor mode mp ps ctx.state ctx.currentIndex ctx.current dice
        ctx.effectiveDice ctx.movingTokenIds st = .ok out := by
  unfold makeMoveCore at h
  cases hv : makeMoveValidate mode mp ps state0 userId tokenId moveColor dice with
  | error e =>
    rw [hv] at h
    simp [Bind.bind, Except.bind] at h
  | ok ctx =>
    rw [hv] at h
    simp only [Bind.bind, Except.bind] at h
    rcases hs : applyStackMoves (getGameConfig mp) moveColor ctx.effectiveDice enterHome
        (getControllableColors mode mp ctx.current.color) ctx.movingTokenIds
        { working := ctx.state.gameBoard.tokens, merged := [], reachedHomeThisMove := false,
          releasedFromBase := false, enteredSafeCell := false } with _ | st
    all_goals rw [hs] at h
    · cases h
    · exact ⟨ctx, st, rfl, hs, h⟩

theorem makeMoveValidate_ok_spec {mode : RoomMode} {mp : Nat} {ps : List RoomPlayer}
    {state0 : RuntimeRoomState} {userId : String} {tokenId : Nat} {moveColor : PlayerColor}
    {dice : Int} {ctx : MoveCtx}
    (h : makeMoveValidate mode mp ps state0 userId tokenId moveColor dice = .ok ctx) :
    ctx.currentIndex = getCurrentIndex state0.currentPlayerIndex state0.gameBoard.currentPlayerId ps ∧
    ps.get? ctx.currentIndex = some ctx.current ∧
    ctx.state = resolveTurnState state0 ctx.currentIndex ctx.current ∧
    ctx.state.currentPlayerIndex = (ctx.currentIndex : Int) ∧
    ctx.state.status = state0.status ∧
    ctx.state.gameBoard.tokens = state0.gameBoard.tokens ∧
    ctx.state.gameBoard.winners = state0.gameBoard.winners ∧
    state0.gameBoard.diceValue = some dice ∧
    (lookupTokens state0.gameBoard.tokens moveColor).find? (fun t => t.id = tokenId) =
      some ctx.token ∧
    ctx.sameCellTokenIds = sameCellIdsOf state0.gameBoard.tokens moveColor ctx.token tokenId ∧
    ctx.forcedStackMove = forcedStackOf state0.gameBoard.tokens moveColor ctx.token tokenId ∧
    (ctx.forcedStackMove = true → Int.tmod dice 2 = 0) ∧
    ctx.effectiveDice = (if ctx.forcedStackMove = true then dice / 2 else dice) ∧
    ctx.movingTokenIds = (if ctx.forcedStackMove = true then ctx.sameCellTokenIds else [tokenId]) ∧
    1 ≤ ctx.effectiveDice := by
  unfold makeMoveValidate at h
  dsimp only at h
  simp only [resolveTurnState_tokens, resolveTurnState_winners, resolveTurnState_diceValue,
    resolveTurnState_validMoves] at h
  split at h
  next => cases h
  next cur hg =>
    split at h
    next => cases h
    next h1 =>
      split at h
      next => cases h
      next h2 =>
        split at h
        next => cases h
        next h3 =>
          split at h
          next => cases h
          next h4 =>
            split at h
            next => cases h
            next h5 =>
              split at h
              next hf => cases h
              next token hf =>
                by_cases h6 : forcedStackOf state0.gameBoard.tokens moveColor token tokenId =
                    true ∧ dice.tmod 2 ≠ 0
                · rw [if_pos h6] at h
                  cases h
                · rw [if_neg h6] at h
                  by_cases h7 : (if forcedStackOf state0.gameBoard.tokens moveColor token
                      tokenId = true then dice / 2 else dice) < 1
                  · rw [if_pos h7] at h
                    cases h
                  · rw [if_neg h7] at h
                    cases h
                    refine ⟨rfl, hg, rfl, rfl, rfl, rfl, rfl, not_ne_iff.mp h3, hf, rfl, rfl,
                      ?_, rfl, rfl, not_lt.mp h7⟩
                    intro hforced
                    exact not_ne_iff.mp (not_and.mp h6 hforced)

theorem head?_isSome_iff (l : List (Nat × PlayerColor)) : l.head?.isSome = true ↔ l ≠ [] := by
  cases l <;> simp

/-! ## C1 — extra-turn and turn-rotation policy -/

/-- C1 as amended: after a successful `makeMove`, if the move completed the
game the status becomes `completed` and the seat index is left at the
resolved current index; otherwise the extra-turn flag holds exactly when
the dice was 6, a capture occurred, or a token reached home, and the seat
index is kept on an extra turn and otherwise set by `advanceTurn` — which
skips winners and can return the *same* seat when every other seat has
already finished. -/
theorem C1_extra_turn_policy {mode : RoomMode} {mp : Nat} {ps : List RoomPlayer}
    {state0 : RuntimeRoomState} {userId : String} {tokenId : Nat} {moveColor : PlayerColor}
    {dice : Int} {enterHome : Bool} {out : MoveOutcome}
    (h : makeMoveCore mode mp ps state0 userId tokenId moveColor dice enterHome = .ok out) :
    (out.earnedExtraTurn = true ↔
        dice = 6 ∨ out.mergedCaptured ≠ [] ∨ out.reachedHomeThisMove = true) ∧
    (out.gameCompleted = true → out.state.status = .completed ∧
        out.state.currentPlayerIndex =
          ((getCurrentIndex state0.currentPlayerIndex state0.gameBoard.currentPlayerId ps : Nat) : Int)) ∧
    (out.gameCompleted = false → out.earnedExtraTurn = true →
        out.state.status = state0.status ∧
        out.state.currentPlayerIndex =
          ((getCurrentIndex state0.currentPlayerIndex state0.gameBoard.currentPlayerId ps : Nat) : Int)) ∧
    (out.gameCompleted = false → out.earnedExtraTurn = false →
        out.state.status = state0.status ∧
        out.state.currentPlayerIndex =
          ((advanceTurn (getCurrentIndex state0.currentPlayerIndex state0.gameBoard.currentPlayerId ps)
              ps out.state.gameBoard.winners (mode ≠ .team) : Nat) : Int)) := by
  obtain ⟨ctx, st, hv, hs, hfin⟩ := makeMoveCore_ok_inv h
  obtain ⟨hci, _, _, hcpi, hstat, _, _, _, _, _, _, _, _, _⟩ := makeMoveValidate_ok_spec hv
  obtain ⟨_, _, hmerge, hreach, hearn, _, hcomp, hkeep, hadv⟩ := makeMoveFinish_ok_spec hfin
  refine ⟨?_, ?_, ?_, ?_⟩
  · rw [hearn]
    simp only [Bool.or_eq_true, decide_eq_true_eq, head?_isSome_iff, hmerge, hreach, or_assoc]
  · intro hgc
    obtain ⟨hc1, hc2⟩ := hcomp hgc
    refine ⟨hc1, ?_⟩
    rw [hc2, hcpi, hci]
  · intro hgc het
    obtain ⟨hc2, hc1⟩ := hkeep hgc het
    refine ⟨hc1.trans hstat, ?_⟩
    rw [hc2, hcpi, hci]
  · intro hgc het
    obtain ⟨hc1, hc2⟩ := hadv hgc het
    refine ⟨hc1.trans hstat, ?_⟩
    rw [hc2, hci]

/-- C1 counterexample: in a 2-player game where the opponent has already
finished, a successful move with no 6, no capture and no home transition
still leaves the turn on the same seat (`advanceTurn` skips the winner and
wraps back), so "the current seat keeps the turn only if dice=6 / capture
/ home" is false as stated. -/
theorem C1_counterexample :
    wrapMove = .ok wrapOut ∧
    wrapOut.earnedExtraTurn = false ∧
    wrapOut.gameCompleted = false ∧
    wrapOut.mergedCaptured = [] ∧
    wrapOut.state.currentPlayerIndex = 0 ∧
    wrapOut.state.gameBoard.currentPlayerId = some "p1" ∧
    wrapState.currentPlayerIndex = 0 ∧
    wrapState.gameBoard.currentPlayerId = some "p1" := by
  refine ⟨?_, ?_, ?_, ?_, ?_, ?_, rfl, rfl⟩ <;> decide

/-- Witness for C1 at the concrete turn-wrap move. -/
theorem C1_extra_turn_policy_witness :
    (wrapOut.earnedExtraTurn = true ↔
        (3 : Int) = 6 ∨ wrapOut.mergedCaptured ≠ [] ∨ wrapOut.reachedHomeThisMove = true) ∧
    (wrapOut.gameCompleted = true → wrapOut.state.status = .completed ∧
        wrapOut.state.currentPlayerIndex =
          ((getCurrentIndex wrapState.currentPlayerIndex wrapState.gameBoard.currentPlayerId
              twoPlayerSeats : Nat) : Int)) ∧
    (wrapOut.gameCompleted = false → wrapOut.earnedExtraTurn = true →
        wrapOut.state.status = wrapState.status ∧
        wrapOut.state.currentPlayerIndex =
          ((getCurrentIndex wrapState.currentPlayerIndex wrapState.gameBoard.currentPlayerId
              twoPlayerSeats : Nat) : Int)) ∧
    (wrapOut.gameCompleted = false → wrapOut.earnedExtraTurn = false →
        wrapOut.state.status = wrapState.status ∧
        wrapOut.state.currentPlayerIndex =
          ((advanceTurn (getCurrentIndex wrapState.currentPlayerIndex
              wrapState.gameBoard.currentPlayerId twoPlayerSeats) twoPlayerSeats
              wrapOut.state.gameBoard.winners (RoomMode.individual ≠ RoomMode.team) : Nat) : Int)) :=
  C1_extra_turn_policy (show makeMoveCore .individual 2 twoPlayerSeats wrapState "u1" 0 .red 3 true =
    .ok wrapOut by decide)

/-! ## C2 — capture-reset and token-invariant lemmas -/

theorem find?_map_update (w : Tokens) (c : PlayerColor) (l : List Token)
    (hany : w.any (fun e => decide (e.1 = c)) = true) :
    lookupTokens (w.map (fun e => if e.1 = c then (e.1, l) else e)) c = l := by
  induction w with
  | nil => cases hany
  | cons e t ih =>
    by_cases he : e.1 = c
    · simp [lookupTokens, List.find?_cons, he]
    · have hany' : t.any (fun e => decide (e.1 = c)) = true := by
        simpa [List.any_cons, he] using hany
      simpa [lookupTokens, List.find?_cons, he] using ih hany'

theorem lookupTokens_setTokens_self (w : Tokens) (c : PlayerColor) (l : List Token) :
    lookupTokens (setTokens w c l) c = l := by
  unfold setTokens
  by_cases hany : w.any (fun e => decide (e.1 = c)) = true
  · rw [if_pos hany]
    exact find?_map_update w c l hany
  · rw [if_neg hany]
    have hnone : w.find? (fun e => decide (e.1 = c)) = none := by
      rw [List.find?_eq_none]
      intro e he hd
      exact hany (List.any_eq_true.mpr ⟨e, he, hd⟩)
    simp [lookupTokens, List.find?_append, hnone, List.find?_cons]

theorem find?_map_update_ne (w : Tokens) (c c2 : PlayerColor) (l : List Token) (hne : c ≠ c2) :
    lookupTokens (w.map (fun e => if e.1 = c2 then (e.1, l) else e)) c = lookupTokens w c := by
  induction w with
  | nil => rfl
  | cons e t ih =>
    have hfst : (if e.1 = c2 then ((e.1 : PlayerColor), l) else e).1 = e.1 := by
      split <;> rfl
    by_cases hec : e.1 = c
    · have he2 : ¬ e.1 = c2 := fun h => hne (hec.symm.trans h)
      simp [lookupTokens, List.find?_cons, he2, hec, hne]
    · have h2 : ¬ ((if e.1 = c2 then ((e.1 : PlayerColor), l) else e).1 = c) := by
        rw [hfst]; exact hec
      simpa [lookupTokens, List.find?_cons, h2, hec] using ih

theorem lookupTokens_setTokens_ne (w : Tokens) (c c2 : PlayerColor) (l : List Token)
    (hne : c ≠ c2) : lookupTokens (setTokens w c2 l) c = lookupTokens w c := by
  unfold setTokens
  by_cases hany : w.any (fun e => decide (e.1 = c2)) = true
  · rw [if_pos hany]
    exact find?_map_update_ne w c c2 l hne
  · rw [if_neg hany]
    unfold lookupTokens
    rw [List.find?_append]
    have h2 : ([(c2, l)].find? (fun e => decide (e.1 = c))) = none := by
      have hcc : ¬ (c2 = c) := fun hh => hne hh.symm
      simp [List.find?_cons, hcc]
    cases hfw : w.find? (fun e => decide (e.1 = c)) <;> simp [hfw, h2]

theorem mem_foldl_dedup (l : List PlayerColor) :
    ∀ (acc : List PlayerColor) (x : PlayerColor),
      x ∈ l.foldl (fun acc c => if c ∈ acc then acc else acc ++ [c]) acc ↔ x ∈ acc ∨ x ∈ l := by
  induction l with
  | nil => intro acc x; simp
  | cons c t ih =>
    intro acc x
    simp only [List.foldl_cons]
    rw [ih]
    by_cases hc : c ∈ acc
    · rw [if_pos hc]
      have hc2 : x = c → x ∈ acc := fun h => h ▸ hc
      simp only [List.mem_cons]
      tauto
    · rw [if_neg hc]
      simp only [List.mem_append, List.mem_cons, List.mem_singleton]
      tauto

theorem mem_dedupFirst {x : PlayerColor} {l : List PlayerColor} :
    x ∈ dedupFirst l ↔ x ∈ l := by
  unfold dedupFirst
  rw [mem_foldl_dedup]
  simp

theorem resetsStep_spec (merged : List (Nat × PlayerColor)) (w : Tokens) (c : PlayerColor) :
    ∀ t ∈ lookupTokens
        (setTokens w c ((lookupTokens w c).map (fun t =>
          if merged.any (fun p => p.2 = c ∧ p.1 = t.id) then resetToken t else t))) c,
      (t.id, c) ∈ merged → t.position = -1 ∧ t.status = .base ∧ t.steps = -1 := by
  intro t ht hmem
  rw [lookupTokens_setTokens_self] at ht
  obtain ⟨t0, _, heq⟩ := List.mem_map.mp ht
  by_cases hc : merged.any (fun p => p.2 = c ∧ p.1 = t0.id) = true
  · rw [if_pos hc] at heq
    rw [← heq]
    exact ⟨rfl, rfl, rfl⟩
  · rw [if_neg hc] at heq
    subst heq
    exact absurd (List.any_eq_true.mpr ⟨(t0.id, c), hmem, by simp⟩) hc

theorem resets_fold_preserve (merged : List (Nat × PlayerColor)) (c : PlayerColor) :
    ∀ (cs : List PlayerColor) (w : Tokens),
      (∀ t ∈ lookupTokens w c, (t.id, c) ∈ merged →
        t.position = -1 ∧ t.status = .base ∧ t.steps = -1) →
      ∀ t ∈ lookupTokens (cs.foldl (fun w c2 =>
          setTokens w c2 ((lookupTokens w c2).map (fun t =>
            if merged.any (fun p => p.2 = c2 ∧ p.1 = t.id) then resetToken t else t))) w) c,
        (t.id, c) ∈ merged → t.position = -1 ∧ t.status = .base ∧ t.steps = -1 := by
  intro cs
  induction cs with
  | nil => intro w hP; exact hP
  | cons c2 rest ih =>
    intro w hP
    simp only [List.foldl_cons]
    refine ih _ ?_
    by_cases hcc : c = c2
    · subst hcc
      exact resetsStep_spec merged w c
    · intro t ht hmem
      rw [lookupTokens_setTokens_ne _ _ _ _ hcc] at ht
      exact hP t ht hmem

theorem applyCaptureResets_spec (merged : List (Nat × PlayerColor)) (w : Tokens) :
    ∀ (c : PlayerColor) (t : Token), t ∈ lookupTokens (applyCaptureResets merged w) c →
      (t.id, c) ∈ merged → t.position = -1 ∧ t.status = .base ∧ t.steps = -1 := by
  intro c t ht hmem
  unfold applyCaptureResets at ht
  have hcs : c ∈ dedupFirst (merged.map Prod.snd) :=
    mem_dedupFirst.mpr (List.mem_map.mpr ⟨(t.id, c), hmem, rfl⟩)
  revert ht
  generalize hgen : dedupFirst (merged.map Prod.snd) = cs at hcs
  clear hgen
  induction cs generalizing w with
  | nil => cases hcs
  | cons c2 rest ih =>
    intro ht
    simp only [List.foldl_cons] at ht
    rcases List.mem_cons.mp hcs with rfl | hcs2
    · exact resets_fold_preserve merged c rest _ (resetsStep_spec merged w c) t ht hmem
    · exact ih _ hcs2 ht

theorem ite_ite_none {α : Type} (A B : Prop) [Decidable A] [Decidable B] :
    (if A then (none : Option α) else if B then none else none) = none := by
  by_cases h : A
  · rw [if_pos h]
  · rw [if_neg h]
    by_cases h2 : B
    · rw [if_pos h2]
    · rw [if_neg h2]

theorem findIdxInt_ge (p : α → Bool) (l : List α) : -1 ≤ findIdxInt p l := by
  unfold findIdxInt
  split
  · omega
  · exact le_refl _

theorem entryIndexAdjustedFor_range (cfg : GameConfig) (c : PlayerColor) :
    entryIndexAdjustedFor cfg c = -1 ∨
      (0 ≤ entryIndexAdjustedFor cfg c ∧ entryIndexAdjustedFor cfg c < 52) := by
  have hTL : ((TRACK_COORDS.length : Nat) : Int) = 52 := by decide
  unfold entryIndexAdjustedFor
  dsimp only
  rw [hTL]
  have he := findIdxInt_ge (fun rc => decide (rc.1 = (cfg.HOME_ENTRANCES c).1) &&
    decide (rc.2 = (cfg.HOME_ENTRANCES c).2)) TRACK_COORDS
  split
  · exact Or.inl rfl
  · refine Or.inr ⟨Int.tmod_nonneg _ (by omega), Int.tmod_lt_of_pos _ (by norm_num)⟩

theorem applyMove_preserves_tokenInv (cfg : GameConfig) (allTokens : Tokens)
    (enterHome : Bool) (allied : List PlayerColor) (t : Token) (dice : Int)
    (pc : PlayerColor) (p : PlayerConfig)
    (hfind : cfg.players.find? (fun q => q.id = pc) = some p)
    (hs0 : 0 ≤ p.homeStart) (hs51 : p.homeStart ≤ 51)
    (hlen : ((cfg.HOME_RUNS pc).length : Int) ≤ 7)
    (hinv : tokenInv t) (hd1 : 1 ≤ dice) (hd6 : dice ≤ 6) :
    ∃ res, applyMove t dice pc cfg allTokens enterHome allied = some res ∧
      tokenInv res.updatedToken := by
  have hTL : ((TRACK_COORDS.length : Nat) : Int) = 52 := by decide
  obtain ⟨hbase, hhome, hbnd⟩ := hinv
  have hstat : t.status = .base ∨ t.status = .active ∨ t.status = .safe ∨
      t.status = .home ∨ t.status = .finished := by
    cases hts : t.status <;> simp
  unfold applyMove
  dsimp only
  rw [hfind, hTL]
  by_cases hb : t.status = TokenStatus.base
  · rw [if_pos hb]
    refine ⟨_, rfl, ?_⟩
    unfold tokenInv
    dsimp only
    refine ⟨?_, ?_, ?_⟩
    · constructor
      · intro h; cases h
      · intro h; exact absurd h (by omega)
    · constructor
      · intro h; rcases h with h | h <;> cases h
      · intro h; exact absurd h (by omega)
    · intro _; exact ⟨hs0, by omega⟩
  · rw [if_neg hb]
    by_cases h52 : (52 : Int) ≤ t.position
    · rw [if_pos h52]
      split
      next h1 => exact ⟨_, rfl, ⟨hbase, hhome, hbnd⟩⟩
      next h1 =>
        split
        next h2 =>
          refine ⟨_, rfl, ?_⟩
          unfold tokenInv
          dsimp only
          refine ⟨?_, ?_, ?_⟩ <;> simp
        next h2 =>
          refine ⟨_, rfl, ?_⟩
          unfold tokenInv
          dsimp only
          push_neg at h1
          refine ⟨?_, ?_, ?_⟩
          · constructor
            · intro h; cases h
            · intro h; exact absurd h (by omega)
          · constructor
            · intro h; rcases h with h | h <;> cases h
            · intro h; exact absurd h (by omega)
          · intro _; exact ⟨by omega, by omega⟩
    · rw [if_neg h52]
      have hstat2 : t.status = .active ∨ t.status = .safe := by
        rcases hstat with h | h | h | h | h
        · exact absurd h hb
        · exact Or.inl h
        · exact Or.inr h
        · exact absurd (hhome.mp (Or.inl h)) (by omega)
        · exact absurd (hhome.mp (Or.inr h)) (by omega)
      have hpos0 : 0 ≤ t.position := (hbnd hstat2).1
      have hm0 : 0 ≤ Int.tmod (t.position + dice) 52 := Int.tmod_nonneg _ (by omega)
      have hm52 : Int.tmod (t.position + dice) 52 < 52 := Int.tmod_lt_of_pos _ (by norm_num)
      have hmoved : tokenInv
          { t with
              steps := t.steps + dice
              position := Int.tmod (t.position + dice) 52
              status := if SAFE_INDICES.contains (Int.tmod (t.position + dice) 52) then
                TokenStatus.safe else TokenStatus.active } := by
        unfold tokenInv
        dsimp only
        refine ⟨?_, ?_, ?_⟩
        · constructor
          · intro h; split at h <;> cases h
          · intro h; exact absurd h (by omega)
        · constructor
          · intro h; rcases h with h | h <;> split at h <;> cases h
          · intro h; exact absurd h (by omega)
        · intro _; exact ⟨hm0, by omega⟩
      split
      next r heq =>
        split at heq
        next hE =>
          split at heq
          next hC1 =>
            split at heq
            next hC2 =>
              split at heq
              next hC3 =>
                injection heq with heq
                subst heq
                refine ⟨_, rfl, ?_⟩
                unfold tokenInv
                dsimp only
                refine ⟨?_, ?_, ?_⟩ <;> simp
              next hC3 =>
                injection heq with heq
                subst heq
                refine ⟨_, rfl, ?_⟩
                unfold tokenInv
                dsimp only
                refine ⟨?_, ?_, ?_⟩
                · constructor
                  · intro h; cases h
                  · intro h; exact absurd h (by omega)
                · constructor
                  · intro h; rcases h with h | h <;> cases h
                  · intro h; exact absurd h (by omega)
                · intro _; exact ⟨by omega, by omega⟩
            next hC2 => cases heq
          next hC1 => cases heq
        next hE => cases heq
      next heq =>
        split
        next hns =>
          split
          next hsc => exact ⟨_, rfl, ⟨hbase, hhome, hbnd⟩⟩
          next victims hsc => exact ⟨_, rfl, hmoved⟩
          next hsc => exact ⟨_, rfl, hmoved⟩
        next hns => exact ⟨_, rfl, hmoved⟩

/-- C2: every token produced by `applyMove` satisfies the status–position
invariant (`base ↔ position = −1`, `home/finished ↔ position = 58`, in-play
positions within `[0,58]`), and after every successful `makeMove` each
captured victim recorded in the merged capture list sits in the final token
record reset exactly to `position = −1`, `status = base`, `steps = −1`. -/
theorem C2_token_invariant (cfg : GameConfig) (allTokens : Tokens)
    (enterHome : Bool) (allied : List PlayerColor) (t : Token) (dice : Int)
    (pc : PlayerColor) (p : PlayerConfig)
    (mode : RoomMode) (mp : Nat) (ps : List RoomPlayer) (state0 : RuntimeRoomState)
    (userId : String) (tokenId : Nat) (mc : PlayerColor) (mdice : Int) (eh : Bool)
    (out : MoveOutcome)
    (hfind : cfg.players.find? (fun q => q.id = pc) = some p)
    (hs0 : 0 ≤ p.homeStart) (hs51 : p.homeStart ≤ 51)
    (hlen : ((cfg.HOME_RUNS pc).length : Int) ≤ 7)
    (hinv : tokenInv t) (hd1 : 1 ≤ dice) (hd6 : dice ≤ 6)
    (hmm : makeMoveCore mode mp ps state0 userId tokenId mc mdice eh = .ok out) :
    (∃ res, applyMove t dice pc cfg allTokens enterHome allied = some res ∧
        tokenInv res.updatedToken) ∧
    (∀ (c : PlayerColor) (tk : Token), tk ∈ lookupTokens out.state.gameBoard.tokens c →
        (tk.id, c) ∈ out.mergedCaptured →
        tk.position = -1 ∧ tk.status = .base ∧ tk.steps = -1) := by
  refine ⟨applyMove_preserves_tokenInv cfg allTokens enterHome allied t dice pc p
    hfind hs0 hs51 hlen hinv hd1 hd6, ?_⟩
  obtain ⟨ctx, st, hv, hs, hf⟩ := makeMoveCore_ok_inv hmm
  obtain ⟨_, _, hmerged, _, _, htokens, _, _, _⟩ := makeMoveFinish_ok_spec hf
  intro c tk htk hmem
  rw [htokens] at htk
  rw [hmerged] at hmem
  exact applyCaptureResets_spec st.merged st.working c tk htk hmem

theorem C2_token_invariant_witness :
    (∃ res, applyMove (baseTok .red 0) 6 .red (getGameConfig 2) initialTokens2 true [] =
        some res ∧ tokenInv res.updatedToken) ∧
    (∀ (c : PlayerColor) (tk : Token),
        tk ∈ lookupTokens teamStackOut.state.gameBoard.tokens c →
        (tk.id, c) ∈ teamStackOut.mergedCaptured →
        tk.position = -1 ∧ tk.status = .base ∧ tk.steps = -1) :=
  C2_token_invariant (getGameConfig 2) initialTokens2 true [] (baseTok .red 0) 6 .red
    { id := .red, homeStart := 0, homeEntranceCoord := (6, 1),
      homeRunCoords := [(7, 1), (7, 2), (7, 3), (7, 4), (7, 5), (7, 6)] }
    .team 4 fourTeamSeats teamStackState "u1" 0 .red 4 true teamStackOut
    (by decide) (by decide) (by decide) (by decide) (by decide) (by decide) (by decide)
    (by decide)

/-! ## C7 — sentinel behaviour of the rule engine -/

/-- C7 counterexample: `applyMove` does *not* leave a base token unchanged
when the dice is not 6 — the base branch releases the token for any dice
value, so the "base token with dice ≠ 6 is not moved" sentinel is false. -/
theorem C7_counterexample :
    applyMove (baseTok .red 0) 3 .red (getGameConfig 2) initialTokens2 true [] =
      some { updatedToken :=
        { id := 0, color := .red, status := .active, position := 0, steps := 0 } } ∧
    (3 : Int) ≠ 6 ∧ (baseTok .red 0).status = .base := by
  refine ⟨by decide, by decide, rfl⟩

/-- C7 as amended: the dice-6 gate for base tokens lives in `findValidMoves`
only — a base token with dice ≠ 6 yields no valid move, and a home token
never yields one; `applyMove` returns the unchanged-token sentinel on a
home-run overshoot; but on a base token `applyMove` releases it for *any*
dice value when the color is an active player, and hits the non-null
assertion (a TypeError, modelled as `none`) when it is not — so `applyMove`
is neither a no-op on base tokens with dice ≠ 6 nor exception-free. -/
theorem C7_sentinel_behaviour (tokens : Tokens) (playerTokens : List Token)
    (dice hcc eia : Int) (ctrl : List PlayerColor) (tbre : Bool) (t th u : Token)
    (cfg : GameConfig) (allTokens : Tokens) (enterHome : Bool) (allied : List PlayerColor)
    (pc : PlayerColor)
    (hbase : t.status = .base) (hd : dice ≠ 6) (hth : th.status = .home)
    (hu52 : 52 ≤ u.position) (hnotbase : ¬ u.status = .base)
    (hover : max 1 (((cfg.HOME_RUNS pc).length : Int) - 1) < u.position - 52 + dice) :
    fvmToken tokens playerTokens dice hcc eia ctrl tbre t = none ∧
    fvmToken tokens playerTokens dice hcc eia ctrl tbre th = none ∧
    applyMove u dice pc cfg allTokens enterHome allied = some { updatedToken := u } ∧
    applyMove t dice pc cfg allTokens enterHome allied =
      (match cfg.players.find? (fun q => q.id = pc) with
        | some p => some { updatedToken :=
            { t with status := .active, steps := 0, position := p.homeStart } }
        | none => none) := by
  refine ⟨?_, ?_, ?_, ?_⟩
  · unfold fvmToken
    dsimp only
    rw [if_neg (show ¬ t.status = .home by rw [hbase]; intro hcon; cases hcon),
      if_pos hbase, if_neg hd]
    exact ite_ite_none _ _
  · unfold fvmToken
    rw [if_pos hth]
  · unfold applyMove
    dsimp only
    rw [if_neg hnotbase, if_pos hu52, if_pos hover]
  · unfold applyMove
    dsimp only
    rw [if_pos hbase]
    cases cfg.players.find? (fun q => q.id = pc) <;> rfl

/-- Witness for C7 at concrete tokens: a base red token with dice 3, a home
token, and a red token on home-run cell 55 overshooting with dice 3. -/
theorem C7_sentinel_behaviour_witness :
    fvmToken initialTokens2 [] 3 5 50 [.red] false (baseTok .red 0) = none ∧
    fvmToken initialTokens2 [] 3 5 50 [.red] false
      { id := 0, color := .red, status := .home, position := 58, steps := 56 } = none ∧
    applyMove { id := 1, color := .red, status := .safe, position := 55, steps := 50 } 3 .red
      (getGameConfig 2) initialTokens2 true [] = some { updatedToken :=
        { id := 1, color := .red, status := .safe, position := 55, steps := 50 } } ∧
    applyMove (baseTok .red 0) 3 .red (getGameConfig 2) initialTokens2 true [] =
      (match (getGameConfig 2).players.find? (fun q => q.id = PlayerColor.red) with
        | some p => some { updatedToken :=
            { baseTok .red 0 with status := .active, steps := 0, position := p.homeStart } }
        | none => none) :=
  C7_sentinel_behaviour initialTokens2 [] 3 5 50 [.red] false (baseTok .red 0)
    { id := 0, color := .red, status := .home, position := 58, steps := 56 }
    { id := 1, color := .red, status := .safe, position := 55, steps := 50 }
    (getGameConfig 2) initialTokens2 true [] .red rfl (by decide) rfl (by decide) (by decide)
    (by decide)

/-! ## C3 — blockade and capture semantics -/

/-- C3 counterexample: red lands on cell 7 holding *two* in-play enemy
tokens (one green, one blue); because the capture loop counts enemies per
color, green's lone token is captured — the "≥2 enemy tokens on the cell
are uncapturable" reading is false; the blockade count is per enemy color. -/
theorem C3_counterexample :
    applyMove { id := 0, color := .red, status := .active, position := 4, steps := 4 } 3 .red
      (getGameConfig 4) mixedCellTokens true [] =
      some { updatedToken := { id := 0, color := .red, status := .active, position := 7, steps := 7 },
             capturedToken := some (0, .green), capturedTokens := some [(0, .green)] } ∧
    (mixedCellTokens.map (fun e =>
        (e.2.filter (fun tk => decide (tk.position = 7) && inPlayStatus tk.status)).length)).sum
      = 2 := by
  constructor <;> decide

/-- C3 as amended: capture works per enemy *color*, not per cell.  In
individual mode the scan never rejects a move, a color whose at-cell count
is ≠ 1 is skipped (so a same-color blockade of ≥2 is uncapturable but a
lone token of each color is fair game), and a lone enemy of some color is
captured; in team mode a ≥2 stack of one enemy color rejects a lone mover
and is captured whole by a stacked mover; and on a non-safe landing cell
`applyMove` returns the unchanged token on rejection and the moved token
plus the victim list otherwise, exactly as the capture scan decides. -/
theorem C3_blockade_captures (A : List PlayerColor) (cbb : Bool) (p : Int)
    (l0 l rest : List (PlayerColor × List Token)) (ec : PlayerColor)
    (enemies1 enemies2 : List Token)
    (cfg : GameConfig) (allTokens : Tokens) (allied : List PlayerColor) (t : Token)
    (dice : Int) (pc : PlayerColor) (enterHome : Bool)
    (hind : ∀ e ∈ l, A.contains e.1 = false →
      (e.2.filter (fun tk => decide (tk.position = p) && inPlayStatus tk.status)).length ≠ 1)
    (hnea : A.contains ec = false)
    (hone : (enemies1.filter (fun tk => decide (tk.position = p) && inPlayStatus tk.status)).length = 1)
    (hblk : 2 ≤ (enemies2.filter (fun tk => decide (tk.position = p) && inPlayStatus tk.status)).length)
    (hact : t.status = .active ∨ t.status = .safe)
    (hpos0 : 0 ≤ t.position) (hpos51 : t.position < 52)
    (hsteps : t.steps + Int.tmod (entryIndexAdjustedFor cfg pc - t.position + 52) 52 < 50)
    (hns : SAFE_INDICES.contains (Int.tmod (t.position + dice) 52) = false) :
    captureScan A false cbb p l0 ≠ .rejected ∧
    captureScan A false cbb p l = .noCapture ∧
    captureScan A false cbb p ((ec, enemies1) :: rest) =
      .captured ((enemies1.filter (fun tk => decide (tk.position = p) && inPlayStatus tk.status)).map
        (fun tk => (tk.id, tk.color))) ∧
    captureScan A true false p ((ec, enemies2) :: rest) = .rejected ∧
    captureScan A true true p ((ec, enemies2) :: rest) =
      .captured ((enemies2.filter (fun tk => decide (tk.position = p) && inPlayStatus tk.status)).map
        (fun tk => (tk.id, tk.color))) ∧
    applyMove t dice pc cfg allTokens enterHome allied =
      (match captureScan (dedupFirst (if allied.isEmpty then [pc] else allied))
          (decide (2 ≤ (dedupFirst (if allied.isEmpty then [pc] else allied)).length))
          (decide (2 ≤ ((lookupTokens allTokens pc).filter
            (fun tk => onTrackInPlay tk && decide (tk.position = t.position))).length))
          (Int.tmod (t.position + dice) 52) allTokens with
        | .rejected => some { updatedToken := t }
        | .captured victims =>
            some { updatedToken :=
                     { t with
                         steps := t.steps + dice
                         position := Int.tmod (t.position + dice) 52
                         status := (if SAFE_INDICES.contains (Int.tmod (t.position + dice) 52) then TokenStatus.safe else TokenStatus.active) }
                   capturedToken := victims.head?
                   capturedTokens := some victims }
        | .noCapture =>
            some { updatedToken :=
                { t with
                    steps := t.steps + dice
                    position := Int.tmod (t.position + dice) 52
                    status := (if SAFE_INDICES.contains (Int.tmod (t.position + dice) 52) then TokenStatus.safe else TokenStatus.active) } }) := by
  have hnea' : ¬ (A.contains ec = true) := fun h => by rw [hnea] at h; cases h
  refine ⟨?_, ?_, ?_, ?_, ?_, ?_⟩
  · induction l0 with
    | nil => intro h; simp [captureScan] at h
    | cons e tl ih =>
      obtain ⟨ec0, ens⟩ := e
      intro h
      simp only [captureScan] at h
      split at h
      next => exact ih h
      next =>
        split at h
        next =>
          split at h
          next h3 => simp at h3
          next =>
            split at h
            next => cases h
            next => exact ih h
        next =>
          split at h
          next => cases h
          next => exact ih h
  · clear hnea hnea' hone hblk
    induction l with
    | nil => rfl
    | cons e tl ih =>
      obtain ⟨ec0, ens⟩ := e
      have h1 := hind (ec0, ens) (List.mem_cons_self _ _)
      have hrest : ∀ e ∈ tl, A.contains e.1 = false →
          (e.2.filter (fun tk => decide (tk.position = p) && inPlayStatus tk.status)).length ≠ 1 :=
        fun e he => hind e (List.mem_cons_of_mem _ he)
      simp only [captureScan]
      split
      next => exact ih hrest
      next hal =>
        have hal' : A.contains ec0 = false := by
          revert hal; cases A.contains ec0 <;> simp
        have hne1 := h1 hal'
        have hne1' : (List.filter (fun tk => decide (tk.position = p) && inPlayStatus tk.status)
            ens).length ≠ 1 := hne1
        split_ifs with hc1 hc2 hc3
        · simp at hc2
        · simp at hc3
        · exact ih hrest
        · exact ih hrest
  · simp only [captureScan]
    rw [if_neg hnea', if_neg (by omega), if_pos hone]
  · simp only [captureScan]
    rw [if_neg hnea', if_pos hblk, if_pos (by decide)]
  · simp only [captureScan]
    rw [if_neg hnea', if_pos hblk, if_neg (by decide), if_pos (by decide)]
  · have hTL : ((TRACK_COORDS.length : Nat) : Int) = 52 := by decide
    have hnb : ¬ t.status = TokenStatus.base := by
      rcases hact with h | h <;> rw [h] <;> intro hc <;> cases hc
    unfold applyMove
    dsimp only
    rw [hTL]
    rw [if_neg hnb, if_neg (show ¬ (52 : Int) ≤ t.position by omega)]
    by_cases hE : enterHome = true ∧ entryIndexAdjustedFor cfg pc ≠ -1 ∧ t.position < 52
    · rw [if_pos hE]
      rw [if_neg (show ¬ (max 1 ((52 : Int) - 2) ≤
          t.steps + Int.tmod (entryIndexAdjustedFor cfg pc - t.position + 52) 52 ∧
          Int.tmod (entryIndexAdjustedFor cfg pc - t.position + 52) 52 < dice) by omega)]
      rw [if_pos (show (!SAFE_INDICES.contains (Int.tmod (t.position + dice) 52)) = true by
        rw [hns]; rfl)]
    · rw [if_neg hE]
      rw [if_pos (show (!SAFE_INDICES.contains (Int.tmod (t.position + dice) 52)) = true by
        rw [hns]; rfl)]

/-- Witness for C3: the individual-mode scan skips a two-token green
blockade on cell 7 (no capture), instantiating the amended theorem at the
mixed-cell scenario. -/
theorem C3_blockade_captures_witness :
    captureScan [PlayerColor.red] false false 7
      [(.green, [{ id := 0, color := .green, status := .active, position := 7, steps := 46 },
                 { id := 1, color := .green, status := .active, position := 7, steps := 10 }])] =
      CaptureScan.noCapture :=
  (C3_blockade_captures [PlayerColor.red] false 7 mixedCellTokens
    [(.green, [{ id := 0, color := .green, status := .active, position := 7, steps := 46 },
               { id := 1, color := .green, status := .active, position := 7, steps := 10 }])]
    [] .green
    [{ id := 0, color := .green, status := .active, position := 7, steps := 46 }]
    [{ id := 0, color := .green, status := .active, position := 7, steps := 46 },
     { id := 1, color := .green, status := .active, position := 7, steps := 10 }]
    (getGameConfig 4) mixedCellTokens []
    { id := 0, color := .red, status := .active, position := 4, steps := 3 } 3 .red true
    (by decide) (by decide) (by decide) (by decide) (by decide) (by decide) (by decide)
    (by decide) (by decide)).2.1

/-! ## C4 — forced-stack moves -/

theorem mergeCaptured_nodup (newOnes : List (Nat × PlayerColor)) :
    ∀ merged, merged.Nodup → (mergeCaptured merged newOnes).Nodup := by
  induction newOnes with
  | nil => intro merged h; exact h
  | cons c rest ih =>
    intro merged h
    have hstep : mergeCaptured merged (c :: rest) =
        mergeCaptured (if merged.any (fun p => p = c) then merged else merged ++ [c]) rest := rfl
    rw [hstep]
    by_cases hc : merged.any (fun p => p = c) = true
    · rw [if_pos hc]
      exact ih merged h
    · rw [if_neg hc]
      refine ih _ ?_
      have hmem : c ∉ merged := fun hm => hc (List.any_eq_true.mpr ⟨c, hm, by simp⟩)
      rw [List.nodup_append]
      exact ⟨h, List.nodup_singleton c, fun a ha hb => by
        rw [List.mem_singleton] at hb; exact hmem (hb ▸ ha)⟩

theorem applyStackMoves_nodup (cfg : GameConfig) (mc : PlayerColor) (eff : Int) (eh : Bool)
    (ctl : List PlayerColor) :
    ∀ (ids : List Nat) (st st' : StackLoopState), st.merged.Nodup →
      applyStackMoves cfg mc eff eh ctl ids st = some st' → st'.merged.Nodup := by
  intro ids
  induction ids with
  | nil =>
    intro st st' h hap
    cases hap
    exact h
  | cons movingId rest ih =>
    intro st st' h hap
    simp only [applyStackMoves] at hap
    split at hap
    next => exact ih st st' h hap
    next mt hfind =>
      split at hap
      next => cases hap
      next res hres =>
        exact ih _ st' (mergeCaptured_nodup _ _ h) hap

/-- C4 counterexample: in the team blockade-break scenario (red stack of two
on cell 10, dice 4), the move succeeds with effective dice 2 and moving ids
[0,1] and captures the whole green blockade, but red token 1 — the second
stack member — is left unchanged on cell 10: its own sub-move is rejected,
so the stack does *not* move together; with an odd dice the move errors. -/
theorem C4_counterexample :
    teamStackMove = .ok teamStackOut ∧
    teamStackOut.effectiveDice = 2 ∧
    teamStackOut.movingTokenIds = [0, 1] ∧
    (lookupTokens teamStackOut.state.gameBoard.tokens .red).find? (fun t => t.id = 1) =
      some { id := 1, color := .red, status := .active, position := 10, steps := 4 } ∧
    teamStackOut.mergedCaptured = [(0, .green), (1, .green)] ∧
    makeMoveCore .team 4 fourTeamSeats
      { teamStackState with gameBoard :=
          { teamStackState.gameBoard with diceValue := some 3 } }
      "u1" 0 .red 3 true = .error .invalidMove := by
  refine ⟨?_, ?_, ?_, ?_, ?_, ?_⟩ <;> decide

/-- C4 as amended: a forced stack (mover sharing a non-safe track cell with
a same-color teammate) admits no valid move on an odd dice — `findValidMoves`
yields none for the token, and `makeMove`'s validation can never succeed —
and on an even dice the validated move carries effective dice `dice / 2` and
the whole same-cell id list as moving ids, deduplicating captured victims
across the stack (the merged capture list has no duplicates).  The stack
members are *attempted* together, but each sub-move can individually be
rejected, so they do not always all move. -/
theorem C4_forced_stack (tokens : Tokens) (playerTokens : List Token) (d1 d2 hcc eia : Int)
    (ctrl : List PlayerColor) (tbre : Bool) (token token0 : Token)
    (mode : RoomMode) (mp : Nat) (ps : List RoomPlayer) (state0 : RuntimeRoomState)
    (userId : String) (tokenId : Nat) (mc : PlayerColor) (ctx : MoveCtx) (out : MoveOutcome)
    (eh : Bool)
    (hontrack : onTrackInPlay token = true)
    (hstack : 2 ≤ (playerTokens.filter
      (fun x => onTrackInPlay x && decide (x.position = token.position))).length)
    (hns : SAFE_INDICES.contains token.position = false)
    (hodd : Int.tmod d1 2 ≠ 0)
    (hfind : (lookupTokens state0.gameBoard.tokens mc).find? (fun t => t.id = tokenId) =
      some token0)
    (hforced : forcedStackOf state0.gameBoard.tokens mc token0 tokenId = true)
    (hv : makeMoveValidate mode mp ps state0 userId tokenId mc d2 = .ok ctx)
    (hmm : makeMoveCore mode mp ps state0 userId tokenId mc d2 eh = .ok out) :
    fvmToken tokens playerTokens d1 hcc eia ctrl tbre token = none ∧
    (∀ ctx2 : MoveCtx, makeMoveValidate mode mp ps state0 userId tokenId mc d1 ≠ .ok ctx2) ∧
    (ctx.forcedStackMove = true → Int.tmod d2 2 = 0 ∧ ctx.effectiveDice = d2 / 2 ∧
      ctx.movingTokenIds = sameCellIdsOf state0.gameBoard.tokens mc ctx.token tokenId) ∧
    out.mergedCaptured.Nodup := by
  refine ⟨?_, ?_, ?_, ?_⟩
  · have hst : inPlayStatus token.status = true := by
      unfold onTrackInPlay at hontrack
      simp only [Bool.and_eq_true] at hontrack
      exact hontrack.2
    have hnh : ¬ token.status = TokenStatus.home := by
      intro hcon; rw [hcon] at hst; cases hst
    unfold fvmToken
    dsimp only
    rw [if_neg hnh, if_pos hontrack]
    have hcond : (onTrackInPlay token &&
        decide (2 ≤ (playerTokens.filter
          (fun t => onTrackInPlay t && decide (t.position = token.position))).length) &&
        !SAFE_INDICES.contains token.position && decide (Int.tmod d1 2 ≠ 0)) = true := by
      rw [hontrack, hns]
      simp [hstack, hodd]
    rw [if_pos hcond]
  · intro ctx2 hk
    obtain ⟨_, _, _, _, _, _, _, _, hfind2, _, hforced2, hforcedmod, _, _, _⟩ :=
      makeMoveValidate_ok_spec hk
    rw [hfind] at hfind2
    have htok : ctx2.token = token0 := (Option.some.inj hfind2).symm
    exact hodd (hforcedmod (by rw [hforced2, htok, hforced]))
  · intro hf
    obtain ⟨_, _, _, _, _, _, _, _, _, hsame, _, hforcedmod, heff, hmids, _⟩ :=
      makeMoveValidate_ok_spec hv
    refine ⟨hforcedmod hf, ?_, ?_⟩
    · rw [heff, if_pos hf]
    · rw [hmids, if_pos hf, hsame]
  · obtain ⟨ctx3, st, hv3, hs3, hf3⟩ := makeMoveCore_ok_inv hmm
    obtain ⟨_, _, hmerged, _, _, _, _, _, _⟩ := makeMoveFinish_ok_spec hf3
    rw [hmerged]
    exact applyStackMoves_nodup _ _ _ _ _ _ _ st (by exact List.nodup_nil) hs3

/-- Witness for C4 at the team blockade-break scenario (odd dice 3 refused,
even dice 4 validated with effective dice 2 and both stack ids). -/
theorem C4_forced_stack_witness :
    fvmToken teamStackTokens
      [{ id := 0, color := .red, status := .active, position := 10, steps := 4 },
       { id := 1, color := .red, status := .active, position := 10, steps := 4 },
       baseTok .red 2, baseTok .red 3] 3 5 50 [.red] false
      { id := 0, color := .red, status := .active, position := 10, steps := 4 } = none ∧
    (∀ ctx2 : MoveCtx,
        makeMoveValidate .team 4 fourTeamSeats teamStackState "u1" 0 .red 3 ≠ .ok ctx2) ∧
    (teamStackCtx.forcedStackMove = true → Int.tmod 4 2 = 0 ∧
      teamStackCtx.effectiveDice = 4 / 2 ∧
      teamStackCtx.movingTokenIds =
        sameCellIdsOf teamStackState.gameBoard.tokens .red teamStackCtx.token 0) ∧
    teamStackOut.mergedCaptured.Nodup :=
  C4_forced_stack teamStackTokens
    [{ id := 0, color := .red, status := .active, position := 10, steps := 4 },
     { id := 1, color := .red, status := .active, position := 10, steps := 4 },
     baseTok .red 2, baseTok .red 3] 3 4 5 50 [.red] false
    { id := 0, color := .red, status := .active, position := 10, steps := 4 }
    { id := 0, color := .red, status := .active, position := 10, steps := 4 }
    .team 4 fourTeamSeats teamStackState "u1" 0 .red teamStackCtx teamStackOut true
    (by decide) (by decide) (by decide) (by decide) (by decide) (by decide) (by decide)
    (by decide)

end LudoBackend
